import Mathlib

/-!
# A verification development for the sonde-link balloon tracker

Shallow embedding, in Lean 4, of the backend of the sonde-link repository:
the source client (`windborne.service.ts`), the identity-resolution tracker
(the Hungarian-assignment tracker of `database.factory.ts`), the trajectory
predictor and value scorer (`trajectory.service.ts`), the wind client
(`wind.service.ts`), the storage layer (`database.service.ts` /
`database.postgres.ts`) and the route-level health classification
(`balloons.routes.ts`).

Conventions of the embedding:
* JavaScript numbers are embedded as real numbers `ℝ` wherever the code does
  geometry, and as rationals/integers where the code only compares and
  branches.  Upstream JSON numbers (which may be `NaN`/`±Infinity`) get an
  explicit `JsNum` type.
* ISO-8601 UTC timestamp strings are embedded as their epoch-millisecond
  values (`ℤ`).  Lexicographic comparison of the equal-format strings the
  system stores coincides with the numeric order, and `new Date(s).getTime()`
  is the identity under this embedding.
* The external Hungarian solver (`munkres-js`) and the R-tree (`rbush`) are
  third-party libraries, not code of this repository.  The R-tree query is
  embedded by its contract (all points inside the searched box); the solver
  is a parameter `assign`, so every theorem quantifies over all solver
  behaviours.
* Network and database effects are made explicit: fallible fetches take the
  upstream outcome as a parameter, the wind client returns an effect trace,
  and the tracker/ingest functions act on an explicit `Store` state.
-/

namespace SondeLink

/-! ## Basic data: status values and balloon ids -/

/-- Tracking status of a balloon row (`'active' | 'new' | 'lost'`). -/
inductive Status where
  | active
  | new
  | lost
deriving DecidableEq, Repr

/-- `String(n).padStart(4, '0')`: left-pad the decimal rendering to width 4. -/
def padStart4 (s : String) : String :=
  String.mk (List.replicate (4 - s.length) '0') ++ s

/-- `` `balloon_${String(n).padStart(4, '0')}` `` — the id minted for counter
value `n` (tracker of `database.factory.ts`, lines 431/674). -/
def mkBalloonId (n : ℕ) : String :=
  "balloon_" ++ padStart4 (Nat.repr n)

/-- `` `temp_${hourOffset}_${index}` `` — the placeholder id given to raw
observations before tracking (`windborne.service.ts`). -/
def tempId (hourOffset : ℕ) (index : ℕ) : String :=
  "temp_" ++ Nat.repr hourOffset ++ "_" ++ Nat.repr index

/-! ## Source client: `fetchHourData` (`windborne.service.ts`, lines 346–401)

Upstream JSON is untrusted: entries may be non-arrays, wrong-length arrays,
non-numbers, or non-finite numbers.  A JavaScript number is either a finite
value (embedded as `ℚ`; the validation only compares against rational
bounds), `NaN`, or `±Infinity`; `typeof x === 'number'` is true for all of
them, while every `<`/`≤` comparison involving `NaN` is false. -/

/-- A JavaScript number as it can appear in upstream JSON. -/
inductive JsNum where
  | fin (q : ℚ)
  | nan
  | posInf
  | negInf
deriving DecidableEq, Repr

/-- JavaScript `a <= b` on numbers (false whenever `NaN` is involved). -/
def JsNum.jsLe : JsNum → JsNum → Bool
  | .fin a, .fin b => a ≤ b
  | .nan, _ => false
  | _, .nan => false
  | .negInf, _ => true
  | _, .posInf => true
  | .posInf, .fin _ => false
  | .posInf, .negInf => false
  | .fin _, .negInf => false

/-- JavaScript `a < b` on numbers (false whenever `NaN` is involved). -/
def JsNum.jsLt : JsNum → JsNum → Bool
  | .fin a, .fin b => a < b
  | .nan, _ => false
  | _, .nan => false
  | .negInf, .negInf => false
  | .negInf, _ => true
  | _, .posInf => true
  | .posInf, _ => false
  | .fin _, .negInf => false

/-- A JSON value of the upstream body: a number, an array, or anything else
(string, object, boolean, null) — the validation only distinguishes these. -/
inductive JsVal where
  | num (n : JsNum)
  | arr (l : List JsVal)
  | other

/-- The filter predicate of `fetchHourData` (lines 369–380): keep an entry iff
it is an array of length 3 whose elements are numbers with
`lat >= -90 && lat <= 90 && lon >= -180 && lon <= 180 && alt > 0 && alt < 50`. -/
def isValidEntry : JsVal → Bool
  | .arr [.num lat, .num lon, .num alt] =>
      JsNum.jsLe (.fin (-90)) lat && JsNum.jsLe lat (.fin 90) &&
      JsNum.jsLe (.fin (-180)) lon && JsNum.jsLe lon (.fin 180) &&
      JsNum.jsLt (.fin 0) alt && JsNum.jsLt alt (.fin 50)
  | _ => false

/-- Outcome of the upstream request for one hour.  `failure` covers every
outcome in which axios throws: non-2xx status (`validateStatus`), network
error, timeout, or JSON parse error; the `catch` block returns `[]`. -/
inductive FetchOutcome where
  | success (body : JsVal)
  | failure

/-- `fetchHourData` (lines 346–401): on a 2xx array body, the validated
subset; on a 2xx non-array body, `[]`; on any thrown error, `[]`.  Total —
the embedding never throws, as the source catches every error. -/
def fetchHourData : FetchOutcome → List JsVal
  | .success (.arr l) => l.filter isValidEntry
  | .success _ => []
  | .failure => []

/-! ## Health classification (`balloons.routes.ts`, lines 271–299)

`getDataAgeMinutes` returns `-1` when there was no update yet, otherwise
`Math.floor((now - lastUpdate) / 60000)` — an integer; the route classifies
on that integer alone. -/

/-- Service health states of the `/api/health` route. -/
inductive HealthStatus where
  | healthy
  | degraded
  | unhealthy
deriving DecidableEq, Repr

/-- The classification of `GET /api/health` (lines 280–289):
negative age (no data yet) → unhealthy; `age > 90` → unhealthy;
`age > 65` → degraded; otherwise healthy. -/
def healthStatus (dataAge : ℤ) : HealthStatus :=
  if dataAge < 0 then .unhealthy
  else if dataAge > 90 then .unhealthy
  else if dataAge > 65 then .degraded
  else .healthy

/-- `getDataAgeMinutes` (`windborne.service.ts`, lines 671–677): `-1` with no
last update, else `Math.floor((now - lastUpdate) / 60000)`. -/
def getDataAgeMinutes (nowMs : ℤ) : Option ℤ → ℤ
  | none => -1
  | some lastUpdate => (nowMs - lastUpdate).fdiv 60000

/-! ## Geometry

Shared real-valued geometry: the identical `calculateDistance` /
`calculateVelocity` of `database.factory.ts` (tracker) and
`trajectory.service.ts`, and the spherical forward formula
`calculateNewPosition` of `trajectory.service.ts`. -/

noncomputable section

open scoped Classical

/-- `const EARTH_RADIUS_KM = 6371`. -/
def EARTH_RADIUS_KM : ℝ := 6371

/-- `degrees * (Math.PI / 180)`. -/
def toRadians (degrees : ℝ) : ℝ := degrees * (Real.pi / 180)

/-- `radians * (180 / Math.PI)`. -/
def toDegrees (radians : ℝ) : ℝ := radians * (180 / Real.pi)

/-- JavaScript `Math.atan2(y, x)`: the principal argument of `x + y·i`. -/
def atan2 (y x : ℝ) : ℝ := Complex.arg ⟨x, y⟩

/-- JavaScript `a % b`.  JS `%` truncates toward zero; every use in this
code has a non-negative left operand and positive right operand, where
truncation and flooring agree, so the floor form is used. -/
def jsMod (a b : ℝ) : ℝ := a - b * (⌊a / b⌋ : ℤ)

/-- Haversine distance (`calculateDistance`, identical in
`database.factory.ts` lines 126–144 and `trajectory.service.ts`
lines 618–636). -/
def calculateDistance (lat1 lon1 lat2 lon2 : ℝ) : ℝ :=
  let dLat := toRadians (lat2 - lat1)
  let dLon := toRadians (lon2 - lon1)
  let a :=
    Real.sin (dLat / 2) * Real.sin (dLat / 2) +
      Real.cos (toRadians lat1) * Real.cos (toRadians lat2) *
        Real.sin (dLon / 2) * Real.sin (dLon / 2)
  let c := 2 * atan2 (Real.sqrt a) (Real.sqrt (1 - a))
  EARTH_RADIUS_KM * c

/-- `angleDifference` (`database.factory.ts` lines 154–160): absolute bearing
difference folded into `[0, 180]`. -/
def angleDifference (angle1 angle2 : ℝ) : ℝ :=
  let diff := jsMod |angle1 - angle2| 360
  if diff > 180 then 360 - diff else diff

/-! ## Data model -/

/-- A tracked balloon data point (`BalloonDataPoint` of `types/balloon`).
`timestamp` is the epoch-millisecond value of the ISO string. -/
structure BalloonDataPoint where
  id : String
  latitude : ℝ
  longitude : ℝ
  altitude_km : ℝ
  timestamp : ℤ
  hour_offset : ℤ
  speed_kmh : Option ℝ := none
  direction_deg : Option ℝ := none
  status : Status := .active
  confidence : ℝ := 1

instance : Inhabited BalloonDataPoint :=
  ⟨{ id := "", latitude := 0, longitude := 0, altitude_km := 0,
     timestamp := 0, hour_offset := 0 }⟩

/-- JavaScript `x || 0` on an optional number field. -/
def jsOr0 (x : Option ℝ) : ℝ := x.getD 0

/-- JavaScript truthiness of an optional number field: present and nonzero
(`NaN` does not arise in these real-valued fields). -/
def jsTruthy (x : Option ℝ) : Prop := jsOr0 x ≠ 0

/-- A velocity as the sources compute it. -/
structure Velocity where
  speed_kmh : ℝ
  direction_deg : ℝ

/-- `calculateVelocity` (`database.factory.ts` lines 165–196): haversine
speed over the elapsed hours, and the initial great-circle bearing from
`prev` to `curr`, normalised to `[0, 360)`. -/
def calculateVelocity (prev curr : BalloonDataPoint) : Velocity :=
  let distance :=
    calculateDistance prev.latitude prev.longitude curr.latitude curr.longitude
  let timeDiffHours := ((curr.timestamp - prev.timestamp : ℤ) : ℝ) / (1000 * 60 * 60)
  let speed_kmh := if timeDiffHours > 0 then distance / timeDiffHours else 0
  let dLon := toRadians (curr.longitude - prev.longitude)
  let lat1 := toRadians prev.latitude
  let lat2 := toRadians curr.latitude
  let y := Real.sin dLon * Real.cos lat2
  let x :=
    Real.cos lat1 * Real.sin lat2 - Real.sin lat1 * Real.cos lat2 * Real.cos dLon
  let direction_deg := atan2 y x * 180 / Real.pi
  ⟨speed_kmh, jsMod (direction_deg + 360) 360⟩

/-! ## Predictor (`trajectory.service.ts`) -/

/-- A wind vector (`WindData` of `wind.service.ts`); `timestamp` is the
epoch-millisecond value of the bound response hour. -/
structure WindData where
  latitude : ℝ
  longitude : ℝ
  altitude_km : ℝ
  pressure_hpa : ℝ
  wind_u_ms : ℝ
  wind_v_ms : ℝ
  wind_speed_kmh : ℝ
  wind_direction_deg : ℝ
  timestamp : ℤ

/-- Prediction methods. -/
inductive PredictionMethod where
  | persistence
  | wind
  | hybrid
deriving DecidableEq, Repr

/-- A predicted position (`PredictedPosition`). -/
structure PredictedPosition where
  latitude : ℝ
  longitude : ℝ
  altitude_km : ℝ
  timestamp : ℤ
  confidence : ℝ
  method : PredictionMethod

instance : Inhabited PredictedPosition :=
  ⟨{ latitude := 0, longitude := 0, altitude_km := 0, timestamp := 0,
     confidence := 0, method := .persistence }⟩

/-- `calculateNewPosition` (`trajectory.service.ts` lines 145–171): the
spherical forward formula with `R = 6371 km`. -/
def calculateNewPosition (lat lon displacement_km bearing_deg : ℝ) : ℝ × ℝ :=
  let bearing_rad := toRadians bearing_deg
  let lat_rad := toRadians lat
  let angular_distance := displacement_km / EARTH_RADIUS_KM
  let new_lat_rad :=
    Real.arcsin
      (Real.sin lat_rad * Real.cos angular_distance +
        Real.cos lat_rad * Real.sin angular_distance * Real.cos bearing_rad)
  let new_lon_rad :=
    toRadians lon +
      atan2 (Real.sin bearing_rad * Real.sin angular_distance * Real.cos lat_rad)
        (Real.cos angular_distance - Real.sin lat_rad * Real.sin new_lat_rad)
  (toDegrees new_lat_rad, toDegrees new_lon_rad)

/-- `predictByPersistenceSync` (`trajectory.service.ts` lines 176–216):
displace along the point's own stored `(speed_kmh || 0, direction_deg || 0)`
for `hoursAhead` hours; a zero speed yields the anchor unchanged with
confidence `0.3`, otherwise confidence `max(0.2, 0.8 − 0.15·hoursAhead)`.
The `historicalPositions` parameter is unused by the source as well. -/
def predictByPersistenceSync (current : BalloonDataPoint)
    (historicalPositions : List BalloonDataPoint) (hoursAhead : ℕ) :
    PredictedPosition :=
  let speed_kmh := jsOr0 current.speed_kmh
  let direction_deg := jsOr0 current.direction_deg
  let futureTs := current.timestamp + 3600000 * hoursAhead
  if speed_kmh = 0 then
    { latitude := current.latitude, longitude := current.longitude,
      altitude_km := current.altitude_km, timestamp := futureTs,
      confidence := 0.3, method := .persistence }
  else
    let displacement_km := speed_kmh * hoursAhead
    let newPos :=
      calculateNewPosition current.latitude current.longitude displacement_km
        direction_deg
    { latitude := newPos.1, longitude := newPos.2,
      altitude_km := current.altitude_km, timestamp := futureTs,
      confidence := max 0.2 (0.8 - hoursAhead * 0.15), method := .persistence }

/-- `predictByWindSync` (lines 221–259): displace along the cached wind
vector; with no wind data, the anchor unchanged with confidence `0.3`. -/
def predictByWindSync (current : BalloonDataPoint) (windData : Option WindData)
    (hoursAhead : ℕ) : PredictedPosition :=
  let futureTs := current.timestamp + 3600000 * hoursAhead
  match windData with
  | none =>
      { latitude := current.latitude, longitude := current.longitude,
        altitude_km := current.altitude_km, timestamp := futureTs,
        confidence := 0.3, method := .wind }
  | some wd =>
      let displacement_km := wd.wind_speed_kmh * hoursAhead
      let newPos :=
        calculateNewPosition current.latitude current.longitude displacement_km
          wd.wind_direction_deg
      { latitude := newPos.1, longitude := newPos.2,
        altitude_km := current.altitude_km, timestamp := futureTs,
        confidence := max 0.3 (0.9 - hoursAhead * 0.12), method := .wind }

/-- `predictByHybridSync` (lines 264–291): `0.6·wind + 0.4·persistence` on
latitude/longitude. -/
def predictByHybridSync (current : BalloonDataPoint)
    (historicalPositions : List BalloonDataPoint) (windData : Option WindData)
    (hoursAhead : ℕ) : PredictedPosition :=
  let persistencePred := predictByPersistenceSync current historicalPositions hoursAhead
  let windPred := predictByWindSync current windData hoursAhead
  let weight_wind : ℝ := 0.6
  let weight_persistence : ℝ := 0.4
  { latitude := windPred.latitude * weight_wind + persistencePred.latitude * weight_persistence,
    longitude := windPred.longitude * weight_wind + persistencePred.longitude * weight_persistence,
    altitude_km := current.altitude_km,
    timestamp := current.timestamp + 3600000 * hoursAhead,
    confidence := max 0.4 (0.95 - hoursAhead * 0.1), method := .hybrid }

/-- JavaScript `Number(x.toFixed(2))`: round to 2 decimals. -/
def toFixed2 (x : ℝ) : ℝ := (round (x * 100) : ℤ) / 100

/-- JavaScript `Number(x.toFixed(1))`: round to 1 decimal. -/
def toFixed1 (x : ℝ) : ℝ := (round (x * 10) : ℤ) / 10

/-- A wind-map key: the components of the string keys
`` `${lat.toFixed(2)},${lon.toFixed(2)},${alt.toFixed(1)}` `` with an
optional trailing timestamp. -/
structure WindKey where
  lat2 : ℝ
  lon2 : ℝ
  alt1 : ℝ
  ts : Option ℤ

/-- The key used to look wind data up for a position. -/
def windKeyOf (p : BalloonDataPoint) (ts : Option ℤ) : WindKey :=
  ⟨toFixed2 p.latitude, toFixed2 p.longitude, toFixed1 p.altitude_km, ts⟩

/-- A predicted trajectory (`BalloonTrajectory`). -/
structure BalloonTrajectory where
  balloon_id : String
  historical_positions : List BalloonDataPoint
  predicted_positions : List PredictedPosition
  prediction_horizon_hours : ℕ

/-- The iteration of `predictTrajectoryWithWindData` (lines 93–121): predict
one hour ahead from the current anchor, then make the predicted point the
anchor of the next hour (the anchor keeps its stored velocity fields). -/
def predictLoop (historicalPositions : List BalloonDataPoint)
    (windDataMap : WindKey → Option WindData) (method : PredictionMethod) :
    BalloonDataPoint → ℕ → List PredictedPosition
  | _, 0 => []
  | currentPos, n + 1 =>
      let windData := windDataMap (windKeyOf currentPos none)
      let prediction :=
        match method with
        | .persistence => predictByPersistenceSync currentPos historicalPositions 1
        | .wind => predictByWindSync currentPos windData 1
        | .hybrid => predictByHybridSync currentPos historicalPositions windData 1
      prediction ::
        predictLoop historicalPositions windDataMap method
          { currentPos with
            latitude := prediction.latitude,
            longitude := prediction.longitude,
            altitude_km := prediction.altitude_km } n

/-- `predictTrajectoryWithWindData` (`trajectory.service.ts` lines 83–129).
The wind map is the result of the batch wind fetch, embedded as a lookup
function. -/
def predictTrajectoryWithWindData (balloon : BalloonDataPoint)
    (historicalPositions : List BalloonDataPoint)
    (windDataMap : WindKey → Option WindData) (predictionHours : ℕ)
    (method : PredictionMethod) : BalloonTrajectory :=
  { balloon_id := balloon.id,
    historical_positions := historicalPositions,
    predicted_positions :=
      predictLoop historicalPositions windDataMap method balloon predictionHours,
    prediction_horizon_hours := predictionHours }

/-- One record of the value time series (`ValueDataPoint`), with the nested
actual/predicted positions flattened into fields. -/
structure ValueDataPoint where
  hour : ℕ
  actual_latitude : ℝ
  actual_longitude : ℝ
  actual_altitude_km : ℝ
  actual_timestamp : ℤ
  predicted_latitude : ℝ
  predicted_longitude : ℝ
  predicted_altitude_km : ℝ
  predicted_confidence : ℝ
  prediction_error_km : ℝ
  value_score : ℝ

/-- The result of `calculateBalloonValueOptimized` (`ValueCalculationResult`;
the wall-clock `calculation_timestamp` field is omitted). -/
structure ValueCalculationResult where
  balloon_id : String
  hours_calculated : ℕ
  method : PredictionMethod
  overall_value_score : ℝ
  value_over_time : List ValueDataPoint

/-- `calculateBalloonValueOptimized` (`trajectory.service.ts` lines
495–613).  `none` embeds the two thrown `Insufficient data` errors.  The
batch wind fetch result is the parameter `windDataMap`.  The `try/catch`
around the prediction is dead for the synchronous predictors, which never
throw. -/
def calculateBalloonValueOptimized (windDataMap : WindKey → Option WindData)
    (balloonId : String) (trajectory : List BalloonDataPoint) (hours : ℕ)
    (method : PredictionMethod) : Option ValueCalculationResult :=
  if trajectory.length < 2 then none
  else
    let maxHours := min hours (trajectory.length - 1)
    if maxHours < 1 then none
    else
      let sortedTrajectory :=
        trajectory.mergeSort fun a b => decide (a.timestamp ≤ b.timestamp)
      let valueOverTime := (List.range maxHours).map fun i =>
        let currentPos := sortedTrajectory.getD i default
        let actualNextPos := sortedTrajectory.getD (i + 1) default
        let windData := windDataMap (windKeyOf currentPos (some currentPos.timestamp))
        let historicalContext := sortedTrajectory.take (i + 1)
        let prediction :=
          match method with
          | .persistence => predictByPersistenceSync currentPos historicalContext 1
          | .wind => predictByWindSync currentPos windData 1
          | .hybrid => predictByHybridSync currentPos historicalContext windData 1
        let errorKm :=
          calculateDistance prediction.latitude prediction.longitude
            actualNextPos.latitude actualNextPos.longitude
        { hour := i,
          actual_latitude := actualNextPos.latitude,
          actual_longitude := actualNextPos.longitude,
          actual_altitude_km := actualNextPos.altitude_km,
          actual_timestamp := actualNextPos.timestamp,
          predicted_latitude := prediction.latitude,
          predicted_longitude := prediction.longitude,
          predicted_altitude_km := prediction.altitude_km,
          predicted_confidence := prediction.confidence,
          prediction_error_km := errorKm,
          value_score := errorKm }
      let avgError :=
        if valueOverTime.length > 0 then
          (valueOverTime.map (·.prediction_error_km)).sum / (valueOverTime.length : ℝ)
        else 0
      some
        { balloon_id := balloonId, hours_calculated := maxHours,
          method := method, overall_value_score := avgError,
          value_over_time := valueOverTime }

/-- One step of a synthetic persistence trajectory: the next hourly position
is exactly the 1-hour persistence prediction from the current one (the
position fields advance; the stored velocity fields are kept). -/
def persistenceStep (p : BalloonDataPoint) : BalloonDataPoint :=
  let pred := predictByPersistenceSync p [] 1
  { p with
    latitude := pred.latitude, longitude := pred.longitude,
    altitude_km := pred.altitude_km, timestamp := pred.timestamp }

/-- A synthetic trajectory of `n` hourly positions generated by the
persistence displacement formula itself, starting at `p` (the shape of the
round-trip law of the spec, §8.7 / scenario S4). -/
def persistenceTrajectory (p : BalloonDataPoint) : ℕ → List BalloonDataPoint
  | 0 => []
  | n + 1 => p :: persistenceTrajectory (persistenceStep p) n

/-! ## Tracker (`database.factory.ts`, Hungarian-assignment tracker)

Constants of lines 73–86. -/

/-- Hard limit on hourly horizontal displacement (600 km). -/
def MAX_DISTANCE_KM_PER_HOUR : ℝ := 600

/-- Typical hourly drift, for score normalisation (150 km). -/
def TYPICAL_DISTANCE_KM_PER_HOUR : ℝ := 150

/-- Hard gate on hourly altitude change (10 km). -/
def MAX_ALTITUDE_DELTA_KM : ℝ := 10

/-- Hard gate on hourly heading change (45°). -/
def MAX_DIRECTION_CHANGE_DEG : ℝ := 45

/-- `SCORING_WEIGHTS.distance`. -/
def SCORING_WEIGHT_distance : ℝ := 0.15

/-- `SCORING_WEIGHTS.direction`. -/
def SCORING_WEIGHT_direction : ℝ := 0.55

/-- `SCORING_WEIGHTS.speed`. -/
def SCORING_WEIGHT_speed : ℝ := 0.10

/-- `SCORING_WEIGHTS.altitude`. -/
def SCORING_WEIGHT_altitude : ℝ := 0.20

/-- `history.slice(-3)`: the last up to three elements. -/
def lastThree (l : List BalloonDataPoint) : List BalloonDataPoint :=
  l.drop (l.length - 3)

/-- An entry of the `velocities` accumulator of `calculateAveragedVelocity`. -/
structure VelocityEntry where
  speed : ℝ
  dirRad : ℝ
  weight : ℕ

/-- `calculateAveragedVelocity` (`database.factory.ts` lines 203–252):
weights 1, 2, 3 on the consecutive segments of the timestamp-sorted history
(most recent heaviest), arithmetic weighted mean for speed, circular
weighted mean for direction.  `none` for history shorter than 2. -/
def calculateAveragedVelocity (history : List BalloonDataPoint) :
    Option Velocity :=
  if history.length < 2 then none
  else
    let sorted := history.mergeSort fun a b => decide (a.timestamp ≤ b.timestamp)
    let velocities : List VelocityEntry :=
      (sorted.zip sorted.tail).enum.map fun iv =>
        let vel := calculateVelocity iv.2.1 iv.2.2
        ⟨vel.speed_kmh, vel.direction_deg * (Real.pi / 180), iv.1 + 1⟩
    if velocities.isEmpty then none
    else
      let totalWeight := (velocities.map fun v => (v.weight : ℝ)).sum
      let weightedSpeed := (velocities.map fun v => v.speed * (v.weight : ℝ)).sum
      let weightedX := (velocities.map fun v => Real.cos v.dirRad * (v.weight : ℝ)).sum
      let weightedY := (velocities.map fun v => Real.sin v.dirRad * (v.weight : ℝ)).sum
      let avgSpeed := weightedSpeed / totalWeight
      let avgDirection := jsMod (atan2 weightedY weightedX * (180 / Real.pi) + 360) 360
      some ⟨avgSpeed, avgDirection⟩

/-- The `velocity` local of `calculateMatchScore` (lines 293–303): the
averaged velocity of the last three history rows when at least two are
known, else the velocity stored on `prev` when both components are truthy
(JavaScript `&&`: present and nonzero), else nothing. -/
def effectiveVelocity (prev : BalloonDataPoint)
    (history : List BalloonDataPoint) : Option Velocity :=
  let avgVelocity :=
    if 2 ≤ history.length then calculateAveragedVelocity (lastThree history)
    else none
  match avgVelocity with
  | some v => some v
  | none =>
      if jsTruthy prev.speed_kmh ∧ jsTruthy prev.direction_deg then
        some ⟨jsOr0 prev.speed_kmh, jsOr0 prev.direction_deg⟩
      else none

/-- The 1-hour dead-reckoning projection of `calculateMatchScore` (lines
305–322): where `prev` should be after one hour at `velocity`; `prev`'s own
coordinates when there is no positive-speed velocity. -/
def predictedPosition (prev : BalloonDataPoint) (velocity : Option Velocity) :
    ℝ × ℝ :=
  match velocity with
  | some v =>
      if v.speed_kmh > 0 then
        let distKm := v.speed_kmh
        let rad := v.direction_deg * (Real.pi / 180)
        let latRad := prev.latitude * (Real.pi / 180)
        let dLat := distKm * Real.cos rad / EARTH_RADIUS_KM
        let dLon := distKm * Real.sin rad / (EARTH_RADIUS_KM * Real.cos latRad)
        (prev.latitude + dLat * (180 / Real.pi),
          prev.longitude + dLon * (180 / Real.pi))
      else (prev.latitude, prev.longitude)
  | none => (prev.latitude, prev.longitude)

/-- `hasPrediction` of `calculateMatchScore`: some velocity with positive
speed. -/
def hasPrediction (velocity : Option Velocity) : Prop :=
  velocity.elim False fun v => v.speed_kmh > 0

/-- `calculateMatchScore` (`database.factory.ts` lines 269–398).  `none`
embeds the `Infinity` returned by the three hard gates; a `some` cost is the
weighted normalised score scaled to `0–100`. -/
def calculateMatchScore (curr prev : BalloonDataPoint)
    (history : List BalloonDataPoint) : Option ℝ :=
  let distance :=
    calculateDistance curr.latitude curr.longitude prev.latitude prev.longitude
  if distance > MAX_DISTANCE_KM_PER_HOUR then none
  else
    let altitudeDelta := |curr.altitude_km - prev.altitude_km|
    if altitudeDelta > MAX_ALTITUDE_DELTA_KM then none
    else
      let velocity := effectiveVelocity prev history
      let predicted := predictedPosition prev velocity
      let predictedDist :=
        calculateDistance curr.latitude curr.longitude predicted.1 predicted.2
      let impliedVelocity := calculateVelocity prev curr
      let fast := velocity.elim False fun v => v.speed_kmh > 10
      let directionChange :=
        if hasPrediction velocity ∧ fast then
          angleDifference (velocity.elim 0 (·.direction_deg))
            impliedVelocity.direction_deg
        else 0
      if hasPrediction velocity ∧ fast ∧
          directionChange > MAX_DIRECTION_CHANGE_DEG then none
      else
        let effectiveDist := if hasPrediction velocity then predictedDist else distance
        let distanceScore := min 1 ((effectiveDist / TYPICAL_DISTANCE_KM_PER_HOUR) ^ 2)
        let directionScore :=
          if hasPrediction velocity ∧ fast then
            (directionChange / MAX_DIRECTION_CHANGE_DEG) ^ 3
          else 0
        let speedScore :=
          if hasPrediction velocity ∧ fast then
            min 1 (|Real.log (impliedVelocity.speed_kmh / velocity.elim 0 (·.speed_kmh))| / Real.log 4)
          else 0
        let altitudeScore := (altitudeDelta / MAX_ALTITUDE_DELTA_KM) ^ 2
        let normalizedCost :=
          SCORING_WEIGHT_distance * distanceScore +
            SCORING_WEIGHT_direction * directionScore +
            SCORING_WEIGHT_speed * speedScore +
            SCORING_WEIGHT_altitude * altitudeScore
        some (normalizedCost * 100)

/-- Cost threshold above which a candidate is not even listed (line 419). -/
def MAX_ACCEPTABLE_COST : ℝ := 70

/-- Stricter greedy-phase cost threshold (line 422). -/
def GREEDY_COST_THRESHOLD : ℝ := 30

/-- Stricter greedy-phase altitude threshold (line 425). -/
def GREEDY_ALTITUDE_THRESHOLD : ℝ := 5

/-- The sentinel cost padding the Hungarian matrix (line 615). -/
def INFINITY_COST : ℝ := 1000000000

/-- A candidate match of the tracker (`CandidateMatch`). -/
structure CandidateMatch where
  prevIdx : ℕ
  prev : BalloonDataPoint
  cost : ℝ

/-- `prevIndexMap` (lines 456–457): `forEach`/`Map.set` keeps the last index
written for an id, defaulting to 0 (the map is only read for present ids). -/
def lastIndexOf (previousData : List BalloonDataPoint) (id : String) : ℕ :=
  previousData.enum.foldl (fun acc ib => if ib.2.id = id then ib.1 else acc) 0

/-- `(MAX_DISTANCE_KM_PER_HOUR * 1.5) / 111` — the R-tree query half-width in
degrees (line 451). -/
def searchRadius : ℝ := MAX_DISTANCE_KM_PER_HOUR * 1.5 / 111

/-- The candidate list one current balloon gets (lines 459–481): previous
balloons inside the query box (the R-tree returns exactly the points of the
box), scored with their history, kept when the score is finite and at most
`MAX_ACCEPTABLE_COST`, sorted by cost (stable, as `Array.prototype.sort`). -/
def candidatesFor (historyByBalloonId : String → List BalloonDataPoint)
    (previousData : List BalloonDataPoint) (curr : BalloonDataPoint) :
    List CandidateMatch :=
  let nearby := previousData.filter fun p =>
    decide (curr.longitude - searchRadius ≤ p.longitude) &&
      decide (p.longitude ≤ curr.longitude + searchRadius) &&
      decide (curr.latitude - searchRadius ≤ p.latitude) &&
      decide (p.latitude ≤ curr.latitude + searchRadius)
  let candidates := nearby.filterMap fun node =>
    match calculateMatchScore curr node (historyByBalloonId node.id) with
    | some cost =>
        if cost ≤ MAX_ACCEPTABLE_COST then
          some ⟨lastIndexOf previousData node.id, node, cost⟩
        else none
    | none => none
  candidates.mergeSort fun a b => decide (a.cost ≤ b.cost)

/-- `prevIdDemand` (lines 495–501): how many current balloons have `id` as
the id of their best candidate. -/
def prevIdDemand (candidatesPerCurrent : ℕ → List CandidateMatch)
    (numCurrent : ℕ) (id : String) : ℕ :=
  ((List.range numCurrent).filter fun i =>
    (candidatesPerCurrent i).head?.map (·.prev.id) == some id).length

/-- `contestedCurrIndices` membership (lines 504–535): the candidate list
names more than one distinct previous id, and at least two candidates have
cost below twice the best and below 50. -/
def isContested (cands : List CandidateMatch) : Prop :=
  1 < (cands.map (·.prev.id)).dedup.length ∧
    match cands with
    | best :: _ :: _ =>
        1 < (cands.filter fun c =>
          decide (c.cost < best.cost * 2) && decide (c.cost < 50)).length
    | _ => False

/-- The mutable locals of the two matching phases (lines 484–487). -/
structure Phase1State where
  tracked : List BalloonDataPoint := []
  matchedPrevIds : List String := []
  matchedCurrIndices : List ℕ := []
  conflictingCurrIndices : List ℕ := []

/-- The row `addMatch` pushes (lines 697–740): the current observation with
the matched previous id, freshly computed velocity, confidence
`max(0.3, exp(−2·cost/100))`, status `active`. -/
def addMatchRow (curr prev : BalloonDataPoint) (cost : ℝ) : BalloonDataPoint :=
  let velocity := calculateVelocity prev curr
  let normalizedCost := cost / 100
  { curr with
    id := prev.id,
    speed_kmh := some velocity.speed_kmh,
    direction_deg := some velocity.direction_deg,
    confidence := max 0.3 (Real.exp (-normalizedCost * 2)),
    status := .active }

/-- `addMatch`'s bookkeeping on the phase state. -/
def applyAddMatch (s : Phase1State) (currIdx : ℕ) (curr prev : BalloonDataPoint)
    (cost : ℝ) : Phase1State :=
  { s with
    tracked := s.tracked ++ [addMatchRow curr prev cost],
    matchedPrevIds := s.matchedPrevIds ++ [prev.id],
    matchedCurrIndices := s.matchedCurrIndices ++ [currIdx] }

/-- Mark an index as conflicting (deferred to the Hungarian phase). -/
def deferConflict (s : Phase1State) (currIdx : ℕ) : Phase1State :=
  { s with conflictingCurrIndices := s.conflictingCurrIndices ++ [currIdx] }

/-- One iteration of the greedy first pass (lines 539–590). -/
def greedyStep (candidatesPerCurrent : ℕ → List CandidateMatch)
    (demand : String → ℕ) (contested : ℕ → Prop)
    (currentData : List BalloonDataPoint) (s : Phase1State) (currIdx : ℕ) :
    Phase1State :=
  let curr := currentData.getD currIdx default
  match candidatesPerCurrent currIdx with
  | [] => s
  | best :: rest =>
      let altDelta := |curr.altitude_km - best.prev.altitude_km|
      if 1 < demand best.prev.id then deferConflict s currIdx
      else if contested currIdx then deferConflict s currIdx
      else
        match rest with
        | [] =>
            if best.prev.id ∉ s.matchedPrevIds ∧
                altDelta < GREEDY_ALTITUDE_THRESHOLD ∧
                best.cost < GREEDY_COST_THRESHOLD then
              applyAddMatch s currIdx curr best.prev best.cost
            else deferConflict s currIdx
        | secondBest :: _ =>
            if best.cost < GREEDY_COST_THRESHOLD ∧
                best.cost < secondBest.cost * 0.5 ∧
                altDelta < GREEDY_ALTITUDE_THRESHOLD ∧
                best.prev.id ∉ s.matchedPrevIds then
              applyAddMatch s currIdx curr best.prev best.cost
            else deferConflict s currIdx

/-- Phase 1: the greedy pass over all current indices in order. -/
def greedyPhase (candidatesPerCurrent : ℕ → List CandidateMatch)
    (demand : String → ℕ) (contested : ℕ → Prop)
    (currentData : List BalloonDataPoint) : Phase1State :=
  (List.range currentData.length).foldl
    (greedyStep candidatesPerCurrent demand contested currentData) {}

/-- `Array.from(new Set(...))`: deduplicate keeping first occurrences. -/
def dedupFirst (l : List ℕ) : List ℕ :=
  l.foldl (fun acc x => if x ∈ acc then acc else acc ++ [x]) []

/-- A conflicting current balloon's still-available candidates (line 602). -/
def conflictCandidates (candidatesPerCurrent : ℕ → List CandidateMatch)
    (matchedPrevIds : List String) (currIdx : ℕ) : List CandidateMatch :=
  (candidatesPerCurrent currIdx).filter fun c =>
    decide (c.prev.id ∉ matchedPrevIds)

/-- The padded square cost matrix of the Hungarian phase (lines 612–638). -/
def hungarianMatrix (conflicting : List ℕ) (unmatchedPrevIndices : List ℕ)
    (cc : ℕ → List CandidateMatch) (k : ℕ) : List (List ℝ) :=
  (List.range k).map fun i =>
    (List.range k).map fun j =>
      if i < conflicting.length then
        match (cc (conflicting.getD i 0)).find? (fun c =>
          unmatchedPrevIndices.indexOf c.prevIdx == j) with
        | some c => c.cost
        | none => INFINITY_COST
      else INFINITY_COST

/-- Phase 2 (lines 592–667): resolve the deferred indices with the external
Hungarian solver `assign` (`munkres-js`), accepting only in-range
assignments with sub-sentinel cost. -/
def hungarianPhase (assign : List (List ℝ) → List (ℕ × ℕ))
    (candidatesPerCurrent : ℕ → List CandidateMatch)
    (currentData previousData : List BalloonDataPoint) (s : Phase1State) :
    Phase1State :=
  match h : s.conflictingCurrIndices with
  | [] => s
  | _ :: _ =>
      let conflicting := s.conflictingCurrIndices
      let cc := conflictCandidates candidatesPerCurrent s.matchedPrevIds
      let unmatchedPrevIndices :=
        dedupFirst (conflicting.flatMap fun i => (cc i).map (·.prevIdx))
      if unmatchedPrevIndices.isEmpty then s
      else
        let k := max conflicting.length unmatchedPrevIndices.length
        let costMatrix := hungarianMatrix conflicting unmatchedPrevIndices cc k
        let assignments := assign costMatrix
        assignments.foldl
          (fun s2 ij =>
            if conflicting.length ≤ ij.1 ∨ unmatchedPrevIndices.length ≤ ij.2 then s2
            else
              let cost := (costMatrix.getD ij.1 []).getD ij.2 INFINITY_COST
              if cost ≥ INFINITY_COST then s2
              else
                let currIdx := conflicting.getD ij.1 0
                let prevIdx := unmatchedPrevIndices.getD ij.2 0
                applyAddMatch s2 currIdx (currentData.getD currIdx default)
                  (previousData.getD prevIdx default) cost)
          s

/-- The final pass (lines 670–679): every still-unmatched current balloon is
emitted with a freshly minted id, status `new`, confidence `0.5`; the
counter advances per mint. -/
def assignNewIds (currentData : List BalloonDataPoint)
    (matchedCurrIndices : List ℕ) (tracked : List BalloonDataPoint)
    (nextId : ℕ) : List BalloonDataPoint × ℕ :=
  (List.range currentData.length).foldl
    (fun acc i =>
      if i ∈ matchedCurrIndices then acc
      else
        (acc.1 ++
          [{ currentData.getD i default with
             id := mkBalloonId acc.2, status := .new, confidence := 0.5 }],
          acc.2 + 1))
    (tracked, nextId)

/-- `trackBalloons` (`database.factory.ts` lines 412–692), as a pure function
of its inputs plus the id counter; the `saveTrackedBalloons` side effect of
line 690 is modelled by `trackBalloonsWithDb` below.  `assign` is the
external `munkres` solver; theorems quantify over it. -/
def trackBalloons (assign : List (List ℝ) → List (ℕ × ℕ))
    (currentData previousData : List BalloonDataPoint)
    (historyByBalloonId : String → List BalloonDataPoint) (nextId : ℕ) :
    List BalloonDataPoint × ℕ :=
  if previousData.isEmpty then
    (currentData.enum.map fun ib =>
      { ib.2 with
        id := mkBalloonId (nextId + ib.1), status := .new, confidence := 1 },
      nextId + currentData.length)
  else
    let candidatesPerCurrent := fun currIdx =>
      candidatesFor historyByBalloonId previousData
        (currentData.getD currIdx default)
    let demand := prevIdDemand candidatesPerCurrent currentData.length
    let contested := fun i => isContested (candidatesPerCurrent i)
    let s1 := greedyPhase candidatesPerCurrent demand contested currentData
    let s2 := hungarianPhase assign candidatesPerCurrent currentData previousData s1
    assignNewIds currentData s2.matchedCurrIndices s2.tracked nextId

end

/-! ## Storage layer (`database.service.ts` / `database.postgres.ts`)

Three tables.  Writes are `INSERT OR REPLACE` / `ON CONFLICT DO UPDATE`
upserts under the primary keys `snapshots(timestamp)`,
`tracked_balloons(id, timestamp)`.  ISO timestamp strings are embedded as
epoch milliseconds (their lexicographic and chronological orders agree). -/

/-- A raw upstream observation `[lat, lon, alt]` (`RawBalloonData`). -/
structure RawObservation where
  lat : ℝ
  lon : ℝ
  alt : ℝ

/-- A row of `balloon_snapshots`. -/
structure Snapshot where
  timestamp : ℤ
  raw_data : List RawObservation

/-- A row of `tracked_balloons` (its columns; there is no confidence
column). -/
structure TrackedRow where
  id : String
  timestamp : ℤ
  lat : ℝ
  lon : ℝ
  alt : ℝ
  speed_kmh : Option ℝ
  direction_deg : Option ℝ
  status : Status
  hour_offset : ℤ

/-- A row of `wind_cache` (PK `(lat, lon, altitude_km, timestamp)`). -/
structure WindCacheRow where
  lat : ℝ
  lon : ℝ
  altitude_km : ℝ
  data : WindData
  timestamp : ℤ

/-- The persistent store. -/
structure Store where
  snapshots : List Snapshot := []
  tracked : List TrackedRow := []
  wind_cache : List WindCacheRow := []

/-- The column values `saveTrackedBalloons` binds for one balloon
(`b.status ?? 'active'` never fires: `status` is always set). -/
def rowOfBalloon (b : BalloonDataPoint) : TrackedRow :=
  { id := b.id, timestamp := b.timestamp, lat := b.latitude,
    lon := b.longitude, alt := b.altitude_km, speed_kmh := b.speed_kmh,
    direction_deg := b.direction_deg, status := b.status,
    hour_offset := b.hour_offset }

/-- `mapRowToBalloon`: a read row, with `confidence` fixed at `1.0` (the
table stores none). -/
def mapRowToBalloon (r : TrackedRow) : BalloonDataPoint :=
  { id := r.id, timestamp := r.timestamp, latitude := r.lat,
    longitude := r.lon, altitude_km := r.alt, speed_kmh := r.speed_kmh,
    direction_deg := r.direction_deg, status := r.status,
    hour_offset := r.hour_offset, confidence := 1 }

/-- Upsert one snapshot under the `timestamp` primary key. -/
def upsertSnapshot : List Snapshot → Snapshot → List Snapshot
  | [], s => [s]
  | h :: t, s =>
      if h.timestamp = s.timestamp then s :: t else h :: upsertSnapshot t s

/-- `saveBalloonSnapshot(timestamp, rawData)`. -/
def saveBalloonSnapshot (st : Store) (timestamp : ℤ)
    (rawData : List RawObservation) : Store :=
  { st with snapshots := upsertSnapshot st.snapshots ⟨timestamp, rawData⟩ }

/-- Upsert one tracked row under the `(id, timestamp)` primary key. -/
def upsertTracked : List TrackedRow → TrackedRow → List TrackedRow
  | [], b => [b]
  | h :: t, b =>
      if h.id = b.id ∧ h.timestamp = b.timestamp then b :: t
      else h :: upsertTracked t b

/-- `saveTrackedBalloons(balloons)`: upsert each row in order. -/
def saveTrackedBalloons (st : Store) (balloons : List BalloonDataPoint) :
    Store :=
  { st with
    tracked := balloons.foldl (fun t b => upsertTracked t (rowOfBalloon b)) st.tracked }

/-- `getTrackedBalloonsAtTimestamp(timestamp)`. -/
def getTrackedBalloonsAtTimestamp (st : Store) (timestamp : ℤ) :
    List BalloonDataPoint :=
  (st.tracked.filter fun r => decide (r.timestamp = timestamp)).map mapRowToBalloon

/-- `SELECT timestamp FROM balloon_snapshots ORDER BY timestamp DESC LIMIT 1`
(`getLatestSnapshotTimestamp`). -/
def getLatestSnapshotTimestamp (st : Store) : Option ℤ :=
  (st.snapshots.map (·.timestamp)).max?

/-- `CAST(substr(id, 9) AS INTEGER)`: the numeric suffix after `balloon_`
(0 for a non-numeric suffix, as SQLite's CAST; every minted id is numeric). -/
def sqlNumericSuffix (id : String) : ℕ :=
  ((id.drop 8).toNat?).getD 0

/-- `getMaxBalloonId`: the largest numeric suffix over ids
`LIKE 'balloon_%'`, 0 when there is none (`row.maxId ? : 0`). -/
def getMaxBalloonId (st : Store) : ℕ :=
  ((st.tracked.filter fun r => r.id.startsWith "balloon_").map fun r =>
    sqlNumericSuffix r.id).foldl max 0

/-- `cleanupStaleData` (`database.postgres.ts` lines 296–322 and the SQLite
twin): delete tracked rows and snapshots with `timestamp < now − 24 h`;
returns the new store with both deletion counts. -/
def cleanupStaleData (st : Store) (nowMs : ℤ) : Store × ℕ × ℕ :=
  let cutoffTimestamp := nowMs - 24 * 3600000
  let keptTracked := st.tracked.filter fun r => decide (cutoffTimestamp ≤ r.timestamp)
  let keptSnapshots := st.snapshots.filter fun s => decide (cutoffTimestamp ≤ s.timestamp)
  ({ st with tracked := keptTracked, snapshots := keptSnapshots },
    st.tracked.length - keptTracked.length,
    st.snapshots.length - keptSnapshots.length)

/-- `clearAllData`: delete every tracked row and snapshot. -/
def clearAllData (st : Store) : Store :=
  { st with tracked := [], snapshots := [] }

/-- Truncation of an epoch-millisecond instant to its hour
(`setMinutes(0,0,0)` / the `.slice(0,13) + ':00:00.000Z'` pattern on an
ISO string). -/
def floorHour (t : ℤ) : ℤ := 3600000 * t.fdiv 3600000

noncomputable section

open scoped Classical

/-- The mutable fields of `WindborneService` relevant to a tick, plus the
store and the tracker's id counter. -/
structure IngestState where
  store : Store := {}
  nextId : ℕ := 1
  lastUpdateTimestamp : Option ℤ := none
  balloonHistory : List BalloonDataPoint := []

/-- `runHourlyUpdate` (`windborne.service.ts` lines 236–322), success path:
save the new snapshot, load the previous hour from `tracked_balloons`,
track the converted observations against it (the tracker writes its result;
line 292 writes it again), update the in-memory fields, then clean up.
`nowWallMs` is the wall clock at the tick; `nowHourMs` is
`getCurrentTimestamp()` (the hour truncation).  `none` embeds the
`newHourData.length === 0` branch, which triggers the full-rebuild fallback
not modelled here. -/
def runHourlyUpdate (assign : List (List ℝ) → List (ℕ × ℕ))
    (nowWallMs nowHourMs : ℤ) (newHourData : List RawObservation)
    (st : IngestState) : Option IngestState :=
  if newHourData.isEmpty then none
  else
    let store1 := saveBalloonSnapshot st.store nowHourMs newHourData
    let previousHourFormatted := floorHour (nowHourMs - 60 * 60 * 1000)
    let previousHourTracked := getTrackedBalloonsAtTimestamp store1 previousHourFormatted
    let newHourBalloons : List BalloonDataPoint := newHourData.enum.map fun ir =>
      { id := tempId 0 ir.1, latitude := ir.2.lat, longitude := ir.2.lon,
        altitude_km := ir.2.alt, timestamp := nowHourMs, hour_offset := 0,
        confidence := 1, status := .active }
    let r := trackBalloons assign newHourBalloons previousHourTracked (fun _ => []) st.nextId
    let store2 := saveTrackedBalloons store1 r.1
    let store3 := saveTrackedBalloons store2 r.1
    let cleaned := cleanupStaleData store3 nowWallMs
    some { store := cleaned.1, nextId := r.2,
           lastUpdateTimestamp := some nowHourMs, balloonHistory := r.1 }

/-! ## The id counter across process operations

`nextId` lives on the tracker object: `initialize()` rehydrates it as
`getMaxBalloonId() + 1`, each mint executes `this.nextId++`, and
`resetState()` (invoked by `completeRebuild()` after `clearAllData()`)
sets it back to 1. -/

/-- The ids a tracking pass mints: exactly its status-`new` rows. -/
def mintedOf (tracked : List BalloonDataPoint) : List String :=
  (tracked.filter fun b => b.status == Status.new).map (·.id)

/-- Process-level operations touching the id counter. -/
inductive TrackerOp where
  | track (assign : List (List ℝ) → List (ℕ × ℕ))
      (currentData previousData : List BalloonDataPoint)
      (history : String → List BalloonDataPoint)
  | clearAll
  | reset
  | init

/-- `resetState`-ness of an operation. -/
def TrackerOp.isReset : TrackerOp → Prop
  | .reset => True
  | _ => False

/-- Whether an operation is a tracking pass. -/
def TrackerOp.isTrack : TrackerOp → Prop
  | .track _ _ _ _ => True
  | _ => False

/-- The counter/store/minted-ids state of the process. -/
structure CounterState where
  nextId : ℕ := 1
  store : Store := {}
  minted : List String := []

/-- One process operation: `track` runs `trackBalloons` (with its store
write) and logs what it minted; `clearAll` is `clearAllData()`; `reset` is
`resetState()` (counter back to 1); `initialize` is
`initialize()` (counter to `getMaxBalloonId() + 1`). -/
def applyTrackerOp : TrackerOp → CounterState → CounterState
  | .track assign currentData previousData history, s =>
      let r := trackBalloons assign currentData previousData history s.nextId
      { nextId := r.2, store := saveTrackedBalloons s.store r.1,
        minted := s.minted ++ mintedOf r.1 }
  | .clearAll, s => { s with store := clearAllData s.store }
  | .reset, s => { s with nextId := 1 }
  | .init, s => { s with nextId := getMaxBalloonId s.store + 1 }

/-- A run of process operations, oldest first. -/
def runTrackerOps (ops : List TrackerOp) (s : CounterState) : CounterState :=
  ops.foldl (fun s op => applyTrackerOp op s) s

end

/-! ## Wind client (`wind.service.ts`, `getWindAtMultipleLocations`)

The batch fetch, with its outgoing requests, pacing sleeps and (absent)
cache traffic made explicit as an effect trace.  The Open-Meteo responses
are a parameter `env`. -/

/-- A requested location (with an optional per-location timestamp). -/
structure WindLocation where
  latitude : ℝ
  longitude : ℝ
  altitude_km : ℝ
  timestamp : Option ℤ := none

instance : Inhabited WindLocation := ⟨⟨0, 0, 0, none⟩⟩

/-- An outgoing Open-Meteo request: the query parameters
`latitude=<csv>&longitude=<csv>&hourly=wind_*_<P>hPa&past_days&forecast_days`
(coordinates as their `toFixed(2)` values). -/
structure WindRequest where
  latitudes : List ℝ
  longitudes : List ℝ
  pressure : ℝ
  past_days : ℤ
  forecast_days : ℤ

/-- The `hourly` object of one Open-Meteo result: parsed times (epoch ms of
`time[j] + 'Z'`) and the two per-pressure-level arrays, which may be absent
(`!data.hourly[key]`) and whose entries may be `null`. -/
structure OMHourly where
  time : List ℤ
  speeds : Option (List (Option ℝ))
  dirs : Option (List (Option ℝ))

/-- One Open-Meteo per-location result (`data.hourly` may be absent). -/
structure OMData where
  hourly : Option OMHourly

/-- The outcome of one batch request: a single object or an array
(`Array.isArray(response.data) ? ... : [response.data]`), an HTTP 429, or
any other axios failure. -/
inductive WindResponse where
  | object (d : OMData)
  | array (l : List OMData)
  | rateLimited
  | failed

/-- `Array.isArray(response.data) ? response.data : [response.data]`. -/
def WindResponse.results : WindResponse → List OMData
  | .object d => [d]
  | .array l => l
  | _ => []

/-- Observable effects of the wind client: wind-cache reads and writes,
outgoing HTTP requests, and pacing sleeps. -/
inductive WindEffect where
  | cacheGet (lat lon altitude_km : ℝ) (timestamp : Option ℤ)
  | cacheSet (data : WindData)
  | httpGet (req : WindRequest)
  | sleepMs (ms : ℕ)

/-- Whether an effect touches the wind cache. -/
def WindEffect.isCacheOp : WindEffect → Bool
  | .cacheGet _ _ _ _ => true
  | .cacheSet _ => true
  | _ => false

/-- Whether an effect is an outgoing request. -/
def WindEffect.isHttpGet : WindEffect → Bool
  | .httpGet _ => true
  | _ => false

noncomputable section

open scoped Classical

/-- The fixed pressure ladder (`PRESSURE_LEVELS`, hPa). -/
def PRESSURE_LEVELS : List ℝ :=
  [1000, 975, 950, 925, 900, 850, 800, 700, 600, 500, 400, 300, 250, 200,
    150, 100, 70, 50, 30]

/-- `altitudeToPressure` (lines 407–418): `P = 1013.25·exp(−h/7.4)` snapped
to the nearest ladder level by `Array.prototype.reduce`. -/
def altitudeToPressure (altitude_km : ℝ) : ℝ :=
  let P0 : ℝ := 1013.25
  let H : ℝ := 7.4
  let pressure := P0 * Real.exp (-altitude_km / H)
  match PRESSURE_LEVELS with
  | [] => 0
  | h :: t =>
      t.foldl (fun prev curr =>
        if |curr - pressure| < |prev - pressure| then curr else prev) h

/-- `pressureToAltitude` (lines 423–427). -/
def pressureToAltitude (pressure_hpa : ℝ) : ℝ :=
  -(7.4 : ℝ) * Real.log (pressure_hpa / 1013.25)

/-- A pressure group of the batch fetch (`LocationGroup`). -/
structure LocationGroup where
  pressure : ℝ
  locations : List WindLocation := []
  minTimestamp : Option ℤ := none
  maxTimestamp : Option ℤ := none

/-- Push a location into a group and widen its hour-rounded time range
(lines 649–661). -/
def addToGroup (g : LocationGroup) (loc : WindLocation)
    (roundedTimestamp : Option ℤ) : LocationGroup :=
  let g' := { g with locations := g.locations ++ [loc] }
  match roundedTimestamp with
  | none => g'
  | some ts =>
      { g' with
        minTimestamp := some ((g'.minTimestamp.map (min ts)).getD ts),
        maxTimestamp := some ((g'.maxTimestamp.map (max ts)).getD ts) }

/-- Find or create the group of a pressure level (JS `Map` keeps insertion
order). -/
def insertIntoGroups :
    List LocationGroup → ℝ → WindLocation → Option ℤ → List LocationGroup
  | [], p, loc, rts => [addToGroup { pressure := p } loc rts]
  | g :: gs, p, loc, rts =>
      if g.pressure = p then addToGroup g loc rts :: gs
      else g :: insertIntoGroups gs p loc rts

/-- Grouping by pressure level only (lines 628–661); per-location timestamps
are rounded down to their hour (`setMinutes(0,0,0)`). -/
def locationGroups (locations : List WindLocation) : List LocationGroup :=
  locations.foldl
    (fun gs loc =>
      insertIntoGroups gs (altitudeToPressure loc.altitude_km) loc
        (loc.timestamp.map floorHour))
    []

/-- The `past_days`/`forecast_days` computation of a group (lines 677–708),
both capped at 3. -/
def windPastForecastDays (nowMs : ℤ) (minTimestamp maxTimestamp : Option ℤ) :
    ℤ × ℤ :=
  match minTimestamp with
  | none => (0, 1)
  | some minTs =>
      let maxTs := maxTimestamp.getD minTs
      let diffDaysOldest : ℝ := ((minTs - nowMs : ℤ) : ℝ) / (1000 * 60 * 60 * 24)
      let diffDaysNewest : ℝ := ((maxTs - nowMs : ℤ) : ℝ) / (1000 * 60 * 60 * 24)
      let pf : ℤ × ℤ :=
        if diffDaysNewest < 0 then (⌈|diffDaysOldest|⌉ + 1, 1)
        else if diffDaysOldest > 1 then (0, ⌈diffDaysNewest⌉ + 1)
        else
          ((if diffDaysOldest < 0 then ⌈|diffDaysOldest|⌉ + 1 else 0),
            (if diffDaysNewest > 0 then ⌈diffDaysNewest⌉ + 1 else 1))
      (min pf.1 3, min pf.2 3)

/-- `i = 0, 300, 600, …` batch slicing (`BATCH_SIZE = 300`). -/
def chunksOf (n : ℕ) (l : List WindLocation) : List (List WindLocation) :=
  if _h : l.isEmpty ∨ n = 0 then []
  else l.take n :: chunksOf n (l.drop n)
termination_by l.length
decreasing_by
  simp only [List.isEmpty_iff, not_or] at _h
  have hl : l.length ≠ 0 := fun hc => _h.1 (List.length_eq_zero.mp hc)
  simp only [List.length_drop]
  omega

/-- `JS Map.set` on the keyed result map: overwrite in place or append. -/
def windMapSet :
    List (WindKey × WindData) → WindKey → WindData → List (WindKey × WindData)
  | [], k, v => [(k, v)]
  | (k0, v0) :: t, k, v =>
      if k0 = k then (k, v) :: t else (k0, v0) :: windMapSet t k v

/-- The `minDiff`/`hourIndex` scan (lines 765–775): index of the response
hour closest to the target, with its distance (`none` embeds the initial
`Infinity` when the time array is empty). -/
def closestHourIndex (times : List ℤ) (targetTime : ℤ) : Option ℝ × ℕ :=
  times.enum.foldl
    (fun acc jt =>
      let diff : ℝ := |((jt.2 - targetTime : ℤ) : ℝ)|
      match acc.1 with
      | none => (some diff, jt.1)
      | some m => if diff < m then (some diff, jt.1) else acc)
    (none, 0)

/-- The per-result binding of the batch response (lines 744–813): pick the
response hour for the location (hour 0 when it carries no timestamp; the
closest hour, discarded beyond 90 minutes, when it does), convert the wind
to `u`/`v` components, and store it under the location's string key. -/
def bindLocation (pressure : ℝ) (batch : List WindLocation)
    (acc : List (WindKey × WindData)) (indexData : ℕ × OMData) :
    List (WindKey × WindData) :=
  match indexData.2.hourly with
  | none => acc
  | some hourly =>
      match hourly.speeds, hourly.dirs with
      | some speeds, some dirs =>
          let loc := batch.getD indexData.1 default
          let hourIndexResult : Option ℕ :=
            match loc.timestamp with
            | some ts =>
                let targetTime := floorHour ts
                let md := closestHourIndex hourly.time targetTime
                match md.1 with
                | none => none
                | some m => if m > 90 * 60 * 1000 then none else some md.2
            | none => some 0
          match hourIndexResult with
          | none => acc
          | some hourIndex =>
              match speeds.getD hourIndex none, dirs.getD hourIndex none with
              | some wind_speed_kmh, some windDirection_deg =>
                  let timestamp := hourly.time.getD hourIndex 0
                  let windSpeed_ms := wind_speed_kmh / 3.6
                  let direction_rad := windDirection_deg * Real.pi / 180
                  let wind_u_ms := -windSpeed_ms * Real.sin direction_rad
                  let wind_v_ms := -windSpeed_ms * Real.cos direction_rad
                  let key : WindKey :=
                    ⟨toFixed2 loc.latitude, toFixed2 loc.longitude,
                      toFixed1 loc.altitude_km, loc.timestamp⟩
                  windMapSet acc key
                    { latitude := loc.latitude, longitude := loc.longitude,
                      altitude_km := loc.altitude_km, pressure_hpa := pressure,
                      wind_u_ms := wind_u_ms, wind_v_ms := wind_v_ms,
                      wind_speed_kmh := wind_speed_kmh,
                      wind_direction_deg := windDirection_deg,
                      timestamp := timestamp }
              | _, _ => acc
      | _, _ => acc

/-- One batch iteration (lines 710–838): build and send the request; on 429
sleep 10 s and skip; on another failure skip; on success bind every result
and, unless this was the final batch, pace 1 s. -/
def runBatch (env : WindRequest → WindResponse) (pressure : ℝ)
    (past_days forecast_days : ℤ)
    (acc : List (WindKey × WindData) × List WindEffect)
    (batch : List WindLocation) (isLast : Bool) :
    List (WindKey × WindData) × List WindEffect :=
  let req : WindRequest :=
    { latitudes := batch.map fun loc => toFixed2 loc.latitude,
      longitudes := batch.map fun loc => toFixed2 loc.longitude,
      pressure := pressure, past_days := past_days,
      forecast_days := forecast_days }
  let effects := acc.2 ++ [WindEffect.httpGet req]
  match env req with
  | .rateLimited => (acc.1, effects ++ [.sleepMs 10000])
  | .failed => (acc.1, effects)
  | resp =>
      let m := resp.results.enum.foldl (bindLocation pressure batch) acc.1
      (m, if isLast then effects else effects ++ [.sleepMs 1000])

/-- One pressure group (lines 666–839): compute the day window, then run the
300-location batches in order. -/
def runGroup (env : WindRequest → WindResponse) (nowMs : ℤ)
    (acc : List (WindKey × WindData) × List WindEffect) (g : LocationGroup) :
    List (WindKey × WindData) × List WindEffect :=
  let pf := windPastForecastDays nowMs g.minTimestamp g.maxTimestamp
  let batches := chunksOf 300 g.locations
  batches.enum.foldl
    (fun a ib => runBatch env g.pressure pf.1 pf.2 a ib.2 (ib.1 + 1 == batches.length))
    acc

/-- `getWindAtMultipleLocations` (`wind.service.ts` lines 608–843): the
keyed result map together with the effect trace of the call. -/
def getWindAtMultipleLocations (env : WindRequest → WindResponse) (nowMs : ℤ)
    (locations : List WindLocation) :
    List (WindKey × WindData) × List WindEffect :=
  if locations.isEmpty then ([], [])
  else (locationGroups locations).foldl (runGroup env nowMs) ([], [])

end

/-! ## Concrete scenario data (used by witnesses and counterexamples) -/

noncomputable section

/-- A balloon drifting due east at 100 km/h (scenario S4 of the spec). -/
def eastBalloon : BalloonDataPoint :=
  { id := "balloon_0001", latitude := 0, longitude := 0, altitude_km := 10,
    timestamp := 0, hour_offset := 0, speed_kmh := some 100,
    direction_deg := some 90 }

/-- A previous-hour tracked balloon at the origin with no stored velocity. -/
def stillPrev : BalloonDataPoint :=
  { id := "balloon_0001", latitude := 0, longitude := 0, altitude_km := 10,
    timestamp := 0, hour_offset := 1 }

/-- The same balloon observed unmoved one hour later (raw, pre-tracking). -/
def stillCurr : BalloonDataPoint :=
  { id := "temp_0_0", latitude := 0, longitude := 0, altitude_km := 10,
    timestamp := 3600000, hour_offset := 0 }

/-- A trivial stand-in for the external Hungarian solver. -/
def emptyAssign : List (List ℝ) → List (ℕ × ℕ) := fun _ => []

/-- A single wind-fetch location at the origin, 10 km altitude, no
timestamp. -/
def oneWindLocation : List WindLocation := [⟨0, 0, 10, none⟩]

/-- An Open-Meteo environment answering every request with one result
carrying a single response hour of 36 km/h wind from due east. -/
def oneWindEnv : WindRequest → WindResponse :=
  fun _ => .array [⟨some ⟨[0], some [some 36], some [some 90]⟩⟩]

/-- The empty per-balloon history map. -/
def emptyHistory : String → List BalloonDataPoint := fun _ => []

/-- A previous-hour tracked-table row for the ingest scenario (hour 49). -/
def prevRowW : TrackedRow :=
  { id := "balloon_0001", timestamp := 3600000 * 49, lat := 0, lon := 0,
    alt := 10, speed_kmh := none, direction_deg := none, status := .active,
    hour_offset := 0 }

/-- The same row as the tracker reads it back. -/
def prevBW : BalloonDataPoint :=
  { id := "balloon_0001", latitude := 0, longitude := 0, altitude_km := 10,
    timestamp := 3600000 * 49, hour_offset := 0, speed_kmh := none,
    direction_deg := none, status := .active, confidence := 1 }

/-- The hour-50 observation of the same balloon, as converted by the
ingest tick. -/
def currW : BalloonDataPoint :=
  { id := tempId 0 0, latitude := 0, longitude := 0, altitude_km := 10,
    timestamp := 3600000 * 50, hour_offset := 0, confidence := 1,
    status := .active }

/-- The ingest state before the hour-50 tick: one balloon tracked at hour
49, counter rehydrated to 2. -/
def st0W : IngestState :=
  { store := { snapshots := [], tracked := [prevRowW], wind_cache := [] },
    nextId := 2, lastUpdateTimestamp := none, balloonHistory := [] }

/-- The ingest state after the hour-50 tick: the observation matched onto
`balloon_0001` at cost 0. -/
def st1W : IngestState :=
  { store :=
      { snapshots := [⟨3600000 * 50, [⟨0, 0, 10⟩]⟩],
        tracked := [prevRowW, rowOfBalloon (addMatchRow currW prevBW 0)],
        wind_cache := [] },
    nextId := 2, lastUpdateTimestamp := some (3600000 * 50),
    balloonHistory := [addMatchRow currW prevBW 0] }

/-- A previous-hour balloon carrying a stored speed of 50 km/h (> 10) and a
stored heading of exactly 0° — JavaScript-falsy, so the code derives no
effective velocity from the stored pair. -/
def southPrev : BalloonDataPoint :=
  { id := "balloon_0001", latitude := 0, longitude := 0, altitude_km := 10,
    timestamp := 0, hour_offset := 1, speed_kmh := some 50,
    direction_deg := some 0 }

/-- The observation one hour later, one degree due south of `southPrev`
(≈ 111 km, implied heading 180°). -/
def southCurr : BalloonDataPoint :=
  { id := "temp_0_0", latitude := -1, longitude := 0, altitude_km := 10,
    timestamp := 3600000, hour_offset := 0 }

/-- The finite cost the scorer assigns the due-south pair: the distance
component alone (the great-circle distance is exactly one degree of arc,
`EARTH_RADIUS_KM * (π / 180)` km). -/
def southCost : ℝ :=
  SCORING_WEIGHT_distance *
    min 1 ((EARTH_RADIUS_KM * (Real.pi / 180) /
      TYPICAL_DISTANCE_KM_PER_HOUR) ^ 2) * 100

end

/-! # Theorems -/

/-! ## Health classification (C10) -/

/-- C10 (amended): `health()` classifies on the data age alone, with
`healthy` exactly on integer ages `0 ≤ age ≤ 65`, `degraded` exactly on
`65 < age ≤ 90`, and `unhealthy` otherwise (negative ages — no data yet —
and ages above 90). -/
theorem healthStatus_classification (dataAge : ℤ) :
    (healthStatus dataAge = .healthy ↔ 0 ≤ dataAge ∧ dataAge ≤ 65) ∧
    (healthStatus dataAge = .degraded ↔ 65 < dataAge ∧ dataAge ≤ 90) ∧
    (healthStatus dataAge = .unhealthy ↔ dataAge < 0 ∨ 90 < dataAge) := by
  unfold healthStatus
  split_ifs with h1 h2 h3 <;>
    refine ⟨?_, ?_, ?_⟩ <;> simp_all <;> omega

/-- C10, counterexample to the claim as stated: at a data age of exactly
65 minutes the route reports `healthy` (the code tests `dataAge > 65`),
while the claim (`degraded` exactly when `65 ≤ age ≤ 90`) demands
`degraded`. -/
theorem healthStatus_at_65 :
    healthStatus 65 = .healthy ∧ healthStatus 65 ≠ .degraded := by
  decide

/-! ## Source client validation (C3) -/

/-- C3: `fetchHourData` returns, on a 2xx array body, exactly the entries
that are 3-element arrays of numbers in range (and a number passes the range
tests exactly when it is finite and in range — `NaN` and `±Infinity` fail
them); on every other outcome (non-2xx, network error, thrown parse error,
non-array body) it returns the empty list and never throws (it is total). -/
theorem fetchHourData_spec (o : FetchOutcome) :
    (∀ l, o = .success (.arr l) → fetchHourData o = l.filter isValidEntry) ∧
    ((∀ l, o ≠ .success (.arr l)) → fetchHourData o = []) ∧
    (∀ e : JsVal, isValidEntry e = true ↔
      ∃ lat lon alt : ℚ,
        e = .arr [.num (.fin lat), .num (.fin lon), .num (.fin alt)] ∧
        -90 ≤ lat ∧ lat ≤ 90 ∧ -180 ≤ lon ∧ lon ≤ 180 ∧ 0 < alt ∧ alt < 50) := by
  refine ⟨?_, ?_, ?_⟩
  · rintro l rfl; rfl
  · intro h
    match o with
    | .failure => rfl
    | .success (.num _) => rfl
    | .success .other => rfl
    | .success (.arr l) => exact absurd rfl (h l)
  · intro e
    constructor
    · intro hv
      simp only [isValidEntry] at hv
      split at hv
      next lat lon alt =>
        rcases lat with qa | _ | _ | _ <;> rcases lon with qb | _ | _ | _ <;>
          rcases alt with qc | _ | _ | _ <;>
          simp only [JsNum.jsLe, JsNum.jsLt, Bool.and_eq_true,
            decide_eq_true_eq] at hv <;>
          first
            | exact ⟨qa, qb, qc, rfl, hv.1.1.1.1.1, hv.1.1.1.1.2, hv.1.1.1.2,
                hv.1.1.2, hv.1.2, hv.2⟩
            | simp_all
      next => exact absurd hv (by simp)
    · rintro ⟨lat, lon, alt, rfl, h1, h2, h3, h4, h5, h6⟩
      simp only [isValidEntry, JsNum.jsLe, JsNum.jsLt, Bool.and_eq_true,
        decide_eq_true_eq]
      exact ⟨⟨⟨⟨⟨h1, h2⟩, h3⟩, h4⟩, h5⟩, h6⟩

/-! ## Predictor confidence (C6) -/

/-- The persistence predictor's 1-hour confidence: `0.3` for a zero stored
speed, else `max(0.2, 0.8 − 0.15) = 0.65`. -/
theorem predictByPersistenceSync_confidence_one (current : BalloonDataPoint)
    (hist : List BalloonDataPoint) :
    (predictByPersistenceSync current hist 1).confidence =
      if jsOr0 current.speed_kmh = 0 then (0.3 : ℝ) else 0.65 := by
  unfold predictByPersistenceSync
  split_ifs with h <;> simp [h]
  rw [max_eq_right] <;> norm_num

/-- `predictLoop` emits one prediction per hour. -/
theorem predictLoop_length (hist : List BalloonDataPoint)
    (map : WindKey → Option WindData) (m : PredictionMethod) :
    ∀ (n : ℕ) (pos : BalloonDataPoint),
      (predictLoop hist map m pos n).length = n := by
  intro n
  induction n with
  | zero => intro pos; rfl
  | succ n ih => intro pos; simp [predictLoop, ih]

/-- Every hour of a persistence `predictLoop` run carries the same
confidence, decided by the starting anchor's stored speed (the per-hour
anchor updates never touch the stored velocity fields). -/
theorem predictLoop_confidence (hist : List BalloonDataPoint)
    (map : WindKey → Option WindData) :
    ∀ (n : ℕ) (pos : BalloonDataPoint) (k : ℕ), k < n →
      ((predictLoop hist map .persistence pos n).getD k default).confidence =
        if jsOr0 pos.speed_kmh = 0 then (0.3 : ℝ) else 0.65 := by
  intro n
  induction n with
  | zero => intro pos k hk; omega
  | succ n ih =>
      intro pos k hk
      match k with
      | 0 =>
          simpa [predictLoop] using
            predictByPersistenceSync_confidence_one pos hist
      | k + 1 =>
          have hk' : k < n := by omega
          simpa [predictLoop] using ih _ k hk'

/-- The anchor-chaining shape of a persistence `predictLoop` run: the
prediction of hour `j+1` is the 1-hour persistence prediction from the
anchor obtained by moving the start anchor to hour `j`'s predicted point. -/
theorem predictLoop_chain (hist : List BalloonDataPoint)
    (map : WindKey → Option WindData) :
    ∀ (n : ℕ) (pos : BalloonDataPoint) (j : ℕ), j + 1 < n →
      (predictLoop hist map .persistence pos n).getD (j + 1) default =
        predictByPersistenceSync
          { pos with
            latitude := ((predictLoop hist map .persistence pos n).getD j default).latitude,
            longitude := ((predictLoop hist map .persistence pos n).getD j default).longitude,
            altitude_km := ((predictLoop hist map .persistence pos n).getD j default).altitude_km }
          hist 1 := by
  intro n
  induction n with
  | zero => intro pos j hj; omega
  | succ n ih =>
      intro pos j hj
      match j with
      | 0 =>
          match n, hj with
          | n + 1, _ => simp [predictLoop]
      | j + 1 =>
          have hj' : j + 1 < n := by omega
          have := ih
            { pos with
              latitude := (predictByPersistenceSync pos hist 1).latitude,
              longitude := (predictByPersistenceSync pos hist 1).longitude,
              altitude_km := (predictByPersistenceSync pos hist 1).altitude_km }
            j hj'
          simpa [predictLoop] using this

/-- C6 (amended): under `method=persistence` every step of
`predictTrajectoryWithWindData` predicts one hour ahead of its anchor, so
the `k`-th predicted position (for every `k < H`) carries the constant
confidence `max(0.2, 0.8 − 0.15·1) = 0.65` when the balloon's stored speed
is nonzero, and `0.3` when it is zero — not `max(0.2, 0.8 − 0.15·k)`; and
each predicted point does become the anchor of the next hour (the anchor
retains its stored velocity). -/
theorem predictTrajectory_persistence_confidence (balloon : BalloonDataPoint)
    (hist : List BalloonDataPoint) (map : WindKey → Option WindData)
    (H k : ℕ) (hk : k < H) :
    (predictTrajectoryWithWindData balloon hist map H .persistence).predicted_positions.length = H ∧
    (((predictTrajectoryWithWindData balloon hist map H .persistence).predicted_positions.getD k default).confidence =
      if jsOr0 balloon.speed_kmh = 0 then (0.3 : ℝ) else 0.65) ∧
    (∀ j, j + 1 < H →
      (predictTrajectoryWithWindData balloon hist map H .persistence).predicted_positions.getD (j + 1) default =
        predictByPersistenceSync
          { balloon with
            latitude := ((predictTrajectoryWithWindData balloon hist map H .persistence).predicted_positions.getD j default).latitude,
            longitude := ((predictTrajectoryWithWindData balloon hist map H .persistence).predicted_positions.getD j default).longitude,
            altitude_km := ((predictTrajectoryWithWindData balloon hist map H .persistence).predicted_positions.getD j default).altitude_km }
          hist 1) := by
  refine ⟨predictLoop_length hist map _ H balloon,
    predictLoop_confidence hist map H balloon k hk,
    fun j hj => predictLoop_chain hist map H balloon j hj⟩

/-- C6, witness: for the eastbound balloon with horizon 2 the second hour's
prediction still has confidence 0.65. -/
theorem predictTrajectory_persistence_confidence_witness :
    (((predictTrajectoryWithWindData eastBalloon [] (fun _ => none) 2 .persistence).predicted_positions.getD 1 default).confidence =
      if jsOr0 eastBalloon.speed_kmh = 0 then (0.3 : ℝ) else 0.65) :=
  (predictTrajectory_persistence_confidence eastBalloon [] (fun _ => none) 2 1
    (by norm_num)).2.1

/-- C6, counterexample to the claim as stated: at hour `k = 2` of a
persistence prediction for the eastbound balloon the confidence is `0.65`,
not the claimed `max(0.2, 0.8 − 0.15·2) = 0.5`. -/
theorem predictTrajectory_confidence_not_decaying :
    (((predictTrajectoryWithWindData eastBalloon [] (fun _ => none) 2 .persistence).predicted_positions.getD 1 default).confidence = 0.65) ∧
    (0.65 : ℝ) ≠ max 0.2 (0.8 - 0.15 * 2) := by
  constructor
  · have := predictLoop_confidence [] (fun _ => none) 2 eastBalloon 1 (by norm_num)
    rw [predictTrajectoryWithWindData] at *
    rw [this]
    simp [eastBalloon, jsOr0]
  · rw [max_eq_right (by norm_num)]
    norm_num

/-! ## Value-scoring round trip (C5) -/

/-- The haversine distance from a point to itself is exactly 0. -/
theorem calculateDistance_self (lat lon : ℝ) :
    calculateDistance lat lon lat lon = 0 := by
  unfold calculateDistance toRadians atan2
  have h1 : (⟨1, 0⟩ : ℂ) = 1 := by
    apply Complex.ext <;> simp
  simp [sub_self, Real.sqrt_zero, sub_zero, Real.sqrt_one, h1, Complex.arg_one]

/-- The persistence predictor ignores its history argument. -/
theorem predictByPersistenceSync_history_irrelevant (q : BalloonDataPoint)
    (h1 h2 : List BalloonDataPoint) (n : ℕ) :
    predictByPersistenceSync q h1 n = predictByPersistenceSync q h2 n := rfl

/-- One persistence step advances the timestamp by exactly one hour and
keeps the stored velocity. -/
theorem persistenceStep_fields (p : BalloonDataPoint) :
    (persistenceStep p).timestamp = p.timestamp + 3600000 ∧
    (persistenceStep p).speed_kmh = p.speed_kmh ∧
    (persistenceStep p).direction_deg = p.direction_deg := by
  refine ⟨?_, rfl, rfl⟩
  by_cases h : jsOr0 p.speed_kmh = 0 <;>
    simp [persistenceStep, predictByPersistenceSync, h]

/-- A synthetic persistence trajectory has the requested length. -/
theorem persistenceTrajectory_length (p : BalloonDataPoint) (n : ℕ) :
    (persistenceTrajectory p n).length = n := by
  induction n generalizing p with
  | zero => rfl
  | succ n ih => simp [persistenceTrajectory, ih]

/-- The `i`-th position of a synthetic persistence trajectory is the `i`-th
iterate of the step. -/
theorem persistenceTrajectory_getD (n i : ℕ) (p : BalloonDataPoint)
    (hi : i < n) :
    (persistenceTrajectory p n).getD i default = persistenceStep^[i] p := by
  induction n generalizing p i with
  | zero => omega
  | succ n ih =>
      match i with
      | 0 => simp [persistenceTrajectory]
      | i + 1 =>
          have hi' : i < n := by omega
          simp only [persistenceTrajectory, List.getD_cons_succ]
          rw [ih i _ hi', Function.iterate_succ_apply]

/-- Timestamps grow by an hour per position along the trajectory. -/
theorem persistenceStep_iterate_timestamp (p : BalloonDataPoint) (i : ℕ) :
    (persistenceStep^[i] p).timestamp = p.timestamp + 3600000 * i := by
  induction i generalizing p with
  | zero => simp
  | succ i ih =>
      rw [Function.iterate_succ_apply, ih, (persistenceStep_fields p).1]
      push_cast
      ring

/-- Every member of a trajectory from `p` is timestamped no earlier than
`p`. -/
theorem persistenceTrajectory_ts_mono (n : ℕ) (p q : BalloonDataPoint)
    (hq : q ∈ persistenceTrajectory p n) : p.timestamp ≤ q.timestamp := by
  induction n generalizing p with
  | zero => simp [persistenceTrajectory] at hq
  | succ n ih =>
      simp only [persistenceTrajectory, List.mem_cons] at hq
      rcases hq with rfl | hq
      · exact le_refl _
      · have := ih (persistenceStep p) hq
        have hts := (persistenceStep_fields p).1
        omega

/-- A synthetic persistence trajectory is already timestamp-sorted. -/
theorem persistenceTrajectory_sorted (n : ℕ) (p : BalloonDataPoint) :
    (persistenceTrajectory p n).Pairwise
      (fun a b => decide (a.timestamp ≤ b.timestamp) = true) := by
  induction n generalizing p with
  | zero => exact List.Pairwise.nil
  | succ n ih =>
      refine List.Pairwise.cons (fun q hq => ?_) (ih (persistenceStep p))
      have h1 := persistenceTrajectory_ts_mono n (persistenceStep p) q hq
      have h2 := (persistenceStep_fields p).1
      simp only [decide_eq_true_eq]
      omega

/-- C5: for every trajectory generated by the persistence displacement
formula itself (any start point, any length ≥ 2), value scoring under
`method=persistence` succeeds and yields `overall_value_score = 0`: at
every scored hour the 1-hour persistence prediction from `traj[i]`
coincides with `traj[i+1]` (over the reals the tolerance is exact). -/
theorem value_persistence_roundtrip (windDataMap : WindKey → Option WindData)
    (balloonId : String) (p : BalloonDataPoint) (n hours : ℕ)
    (hn : 2 ≤ n) (hh : 1 ≤ hours) :
    ∃ r, calculateBalloonValueOptimized windDataMap balloonId
        (persistenceTrajectory p n) hours .persistence = some r ∧
      r.overall_value_score = 0 := by
  have hlen := persistenceTrajectory_length p n
  have hnot2 : ¬ (persistenceTrajectory p n).length < 2 := by omega
  have hmax1 : ¬ min hours ((persistenceTrajectory p n).length - 1) < 1 := by
    simp only [hlen]; omega
  have hsorted :
      (persistenceTrajectory p n).mergeSort
        (fun a b => decide (a.timestamp ≤ b.timestamp)) =
      persistenceTrajectory p n :=
    List.mergeSort_of_sorted (persistenceTrajectory_sorted n p)
  simp only [calculateBalloonValueOptimized, hsorted, if_neg hnot2, if_neg hmax1]
  refine ⟨_, rfl, ?_⟩
  have hmaxle : min hours ((persistenceTrajectory p n).length - 1) ≤ n - 1 := by
    simp only [hlen]; omega
  have herr : ∀ i ∈ List.range (min hours ((persistenceTrajectory p n).length - 1)),
      calculateDistance
        (predictByPersistenceSync ((persistenceTrajectory p n).getD i default)
          ((persistenceTrajectory p n).take (i + 1)) 1).latitude
        (predictByPersistenceSync ((persistenceTrajectory p n).getD i default)
          ((persistenceTrajectory p n).take (i + 1)) 1).longitude
        ((persistenceTrajectory p n).getD (i + 1) default).latitude
        ((persistenceTrajectory p n).getD (i + 1) default).longitude = 0 := by
    intro i hi
    rw [List.mem_range] at hi
    have hin : i < n := by omega
    have hin1 : i + 1 < n := by omega
    rw [persistenceTrajectory_getD n i p hin,
      persistenceTrajectory_getD n (i + 1) p hin1,
      Function.iterate_succ_apply']
    have hpred :
        predictByPersistenceSync (persistenceStep^[i] p)
          ((persistenceTrajectory p n).take (i + 1)) 1 =
        predictByPersistenceSync (persistenceStep^[i] p) [] 1 :=
      predictByPersistenceSync_history_irrelevant _ _ _ _
    rw [hpred]
    show calculateDistance
        (predictByPersistenceSync (persistenceStep^[i] p) [] 1).latitude
        (predictByPersistenceSync (persistenceStep^[i] p) [] 1).longitude
        (persistenceStep (persistenceStep^[i] p)).latitude
        (persistenceStep (persistenceStep^[i] p)).longitude = 0
    have hlat : (persistenceStep (persistenceStep^[i] p)).latitude =
        (predictByPersistenceSync (persistenceStep^[i] p) [] 1).latitude := rfl
    have hlon : (persistenceStep (persistenceStep^[i] p)).longitude =
        (predictByPersistenceSync (persistenceStep^[i] p) [] 1).longitude := rfl
    rw [hlat, hlon, calculateDistance_self]
  dsimp only
  rw [if_pos (by simp only [List.length_map, List.length_range, hlen]; omega)]
  rw [List.map_map]
  refine div_eq_zero_iff.mpr (Or.inl ?_)
  apply List.sum_eq_zero
  intro x hx
  rw [List.mem_map] at hx
  obtain ⟨i, hi, rfl⟩ := hx
  exact herr i hi

/-- C5, witness (scenario S4): a 6-point trajectory at a constant stored
100 km/h due east, scored with `method=persistence, hours=5`, has overall
value score exactly 0. -/
theorem value_persistence_roundtrip_witness :
    ∃ r, calculateBalloonValueOptimized (fun _ => none) "balloon_0001"
        (persistenceTrajectory eastBalloon 6) 5 .persistence = some r ∧
      r.overall_value_score = 0 :=
  value_persistence_roundtrip (fun _ => none) "balloon_0001" eastBalloon 6 5
    (by norm_num) (by norm_num)

/-! ## Wind cache use of the batch wind fetch (C4) -/

/-- One batch iteration adds no wind-cache effect to the trace. -/
theorem runBatch_effects_cacheFree (env : WindRequest → WindResponse)
    (pressure : ℝ) (pd fd : ℤ)
    (acc : List (WindKey × WindData) × List WindEffect)
    (batch : List WindLocation) (isLast : Bool) :
    ((runBatch env pressure pd fd acc batch isLast).2).filter
        WindEffect.isCacheOp =
      acc.2.filter WindEffect.isCacheOp := by
  simp only [runBatch]
  split <;> cases isLast <;>
    simp [List.filter_append, WindEffect.isCacheOp]

/-- Folding batches adds no wind-cache effect. -/
theorem foldl_runBatch_cacheFree (env : WindRequest → WindResponse)
    (pressure : ℝ) (pd fd : ℤ) (f : ℕ → Bool) :
    ∀ (l : List (ℕ × List WindLocation))
      (acc : List (WindKey × WindData) × List WindEffect),
      ((l.foldl (fun a ib => runBatch env pressure pd fd a ib.2 (f ib.1))
          acc).2).filter WindEffect.isCacheOp =
        acc.2.filter WindEffect.isCacheOp := by
  intro l
  induction l with
  | nil => intro acc; rfl
  | cons hd tl ih =>
      intro acc
      rw [List.foldl_cons, ih, runBatch_effects_cacheFree]

/-- One pressure group adds no wind-cache effect. -/
theorem runGroup_effects_cacheFree (env : WindRequest → WindResponse)
    (nowMs : ℤ) (acc : List (WindKey × WindData) × List WindEffect)
    (g : LocationGroup) :
    ((runGroup env nowMs acc g).2).filter WindEffect.isCacheOp =
      acc.2.filter WindEffect.isCacheOp := by
  unfold runGroup
  exact foldl_runBatch_cacheFree env g.pressure _ _
    (fun i => i + 1 == (chunksOf 300 g.locations).length) _ acc

/-- The whole batch fetch performs no wind-cache read or write. -/
theorem getWind_effects_cacheFree (env : WindRequest → WindResponse)
    (nowMs : ℤ) (locations : List WindLocation) :
    ((getWindAtMultipleLocations env nowMs locations).2).filter
      WindEffect.isCacheOp = [] := by
  unfold getWindAtMultipleLocations
  split
  · rfl
  · have : ∀ (gs : List LocationGroup)
        (acc : List (WindKey × WindData) × List WindEffect),
        ((gs.foldl (runGroup env nowMs) acc).2).filter WindEffect.isCacheOp =
          acc.2.filter WindEffect.isCacheOp := by
      intro gs
      induction gs with
      | nil => intro acc; rfl
      | cons hd tl ih =>
          intro acc
          rw [List.foldl_cons, ih, runGroup_effects_cacheFree]
    rw [this]
    rfl

/-- C4 (amended): `getWindAtMultipleLocations` — the `wind_for` batch path —
sends its outgoing wind requests without ever consulting the Wind Cache and
inserts none of its results into it: its effect trace contains no cache
read and no cache write for any environment, clock, or location list.  (The
cache is touched only by the single-location `getWindAtLocation` path.) -/
theorem wind_for_never_touches_cache (env : WindRequest → WindResponse)
    (nowMs : ℤ) (locations : List WindLocation) :
    ((getWindAtMultipleLocations env nowMs locations).2).filter
      WindEffect.isCacheOp = [] :=
  getWind_effects_cacheFree env nowMs locations

/-- C4, counterexample to the claim as stated: for a concrete single
location and a successful upstream response, the batch fetch sends a
request and returns a bound wind vector, yet its trace contains no cache
consultation and no cache insertion at all. -/
theorem wind_for_cache_counterexample :
    ((getWindAtMultipleLocations oneWindEnv 0 oneWindLocation).2).filter
        WindEffect.isCacheOp = [] ∧
    ((getWindAtMultipleLocations oneWindEnv 0 oneWindLocation).2).filter
        WindEffect.isHttpGet ≠ [] ∧
    (getWindAtMultipleLocations oneWindEnv 0 oneWindLocation).1 ≠ [] := by
  refine ⟨getWind_effects_cacheFree oneWindEnv 0 oneWindLocation, ?_, ?_⟩ <;>
    simp [getWindAtMultipleLocations, oneWindLocation, oneWindEnv,
      locationGroups, insertIntoGroups, addToGroup, runGroup,
      windPastForecastDays, chunksOf, runBatch, bindLocation, windMapSet,
      closestHourIndex, WindEffect.isHttpGet, WindResponse.results]

/-! ## Tracker effects (C7) -/

/-- A row of an upserted list is an old row or the upserted one. -/
theorem mem_upsertTracked (l : List TrackedRow) (b row : TrackedRow)
    (h : row ∈ upsertTracked l b) : row ∈ l ∨ row = b := by
  induction l with
  | nil =>
      simp only [upsertTracked, List.mem_singleton] at h
      exact Or.inr h
  | cons hd tl ih =>
      simp only [upsertTracked] at h
      split_ifs at h
      · rcases List.mem_cons.mp h with rfl | h'
        · exact Or.inr rfl
        · exact Or.inl (List.mem_cons_of_mem _ h')
      · rcases List.mem_cons.mp h with rfl | h'
        · exact Or.inl (List.mem_cons_self _ _)
        · rcases ih h' with h'' | h''
          · exact Or.inl (List.mem_cons_of_mem _ h'')
          · exact Or.inr h''

/-- A row of a saved batch's result is an old row or one of the batch. -/
theorem mem_saveTracked_foldl (batch : List BalloonDataPoint) :
    ∀ (l : List TrackedRow) (row : TrackedRow),
      row ∈ batch.foldl (fun t b => upsertTracked t (rowOfBalloon b)) l →
      row ∈ l ∨ ∃ b ∈ batch, row = rowOfBalloon b := by
  induction batch with
  | nil => intro l row h; exact Or.inl h
  | cons hd tl ih =>
      intro l row h
      rw [List.foldl_cons] at h
      rcases ih _ row h with h' | ⟨b, hb, rfl⟩
      · rcases mem_upsertTracked _ _ _ h' with h'' | rfl
        · exact Or.inl h''
        · exact Or.inr ⟨hd, List.mem_cons_self _ _, rfl⟩
      · exact Or.inr ⟨b, List.mem_cons_of_mem _ hb, rfl⟩

/-- `mintedOf` distributes over append. -/
theorem mintedOf_append (a b : List BalloonDataPoint) :
    mintedOf (a ++ b) = mintedOf a ++ mintedOf b := by
  simp [mintedOf, List.filter_append]

/-- A list of active rows mints nothing. -/
theorem mintedOf_of_active (l : List BalloonDataPoint)
    (h : ∀ r ∈ l, r.status = .active) : mintedOf l = [] := by
  simp only [mintedOf, List.map_eq_nil_iff, List.filter_eq_nil_iff]
  intro r hr
  simp [h r hr]

/-- Generic preservation of a per-row property along a `Phase1State` fold:
if each step only keeps rows or pushes rows satisfying `P`, so does the
fold. -/
theorem foldl_tracked_pres {α : Type} (P : BalloonDataPoint → Prop)
    (F : Phase1State → α → Phase1State) :
    ∀ (l : List α),
      (∀ (s : Phase1State), ∀ a ∈ l, ∀ r ∈ (F s a).tracked, r ∈ s.tracked ∨ P r) →
      ∀ (s : Phase1State), ∀ r ∈ (l.foldl F s).tracked, r ∈ s.tracked ∨ P r := by
  intro l
  induction l with
  | nil => intro _ s r hr; exact Or.inl hr
  | cons a tl ih =>
      intro hF s r hr
      rw [List.foldl_cons] at hr
      rcases ih (fun s' a' ha' => hF s' a' (List.mem_cons_of_mem _ ha')) _ r hr with
        h | h
      · exact hF s a (List.mem_cons_self _ _) r h
      · exact Or.inr h

/-- One greedy iteration keeps old rows or pushes an `addMatchRow` built
from the head (or second) candidate of the current index. -/
theorem greedyStep_tracked_sub (cpc : ℕ → List CandidateMatch)
    (demand : String → ℕ) (contested : ℕ → Prop)
    (currentData : List BalloonDataPoint) (s : Phase1State) (i : ℕ) (r : BalloonDataPoint)
    (hr : r ∈ (greedyStep cpc demand contested currentData s i).tracked) :
    r ∈ s.tracked ∨
      ∃ cand ∈ cpc i,
        r = addMatchRow (currentData.getD i default) cand.prev cand.cost := by
  unfold greedyStep at hr
  rcases hc : cpc i with _ | ⟨best, rest⟩ <;> rw [hc] at hr
  · exact Or.inl hr
  · dsimp only at hr
    by_cases h1 : 1 < demand best.prev.id
    · rw [if_pos h1] at hr; exact Or.inl hr
    rw [if_neg h1] at hr
    by_cases h2 : contested i
    · rw [if_pos h2] at hr; exact Or.inl hr
    rw [if_neg h2] at hr
    rcases rest with _ | ⟨sb, tl⟩ <;>
      · dsimp only at hr
        split_ifs at hr with h3
        · simp only [applyAddMatch, List.mem_append,
            List.mem_singleton] at hr
          rcases hr with hr | rfl
          · exact Or.inl hr
          · exact Or.inr ⟨best, by simp [hc], rfl⟩
        · exact Or.inl hr

/-- Every row the greedy phase pushes is an `addMatchRow` of a listed
candidate of an index of the folded range. -/
theorem greedyPhase_tracked (cpc : ℕ → List CandidateMatch)
    (demand : String → ℕ) (contested : ℕ → Prop)
    (currentData : List BalloonDataPoint) :
    ∀ r ∈ (greedyPhase cpc demand contested currentData).tracked,
      ∃ i < currentData.length, ∃ cand ∈ cpc i,
        r = addMatchRow (currentData.getD i default) cand.prev cand.cost := by
  intro r hr
  have := foldl_tracked_pres
    (fun r => ∃ i < currentData.length, ∃ cand ∈ cpc i,
      r = addMatchRow (currentData.getD i default) cand.prev cand.cost)
    (greedyStep cpc demand contested currentData)
    (List.range currentData.length)
    (by
      intro s a ha r' hr'
      rcases greedyStep_tracked_sub cpc demand contested currentData s a r' hr' with
        h | ⟨cand, hcand, rfl⟩
      · exact Or.inl h
      · exact Or.inr ⟨a, List.mem_range.mp ha, cand, hcand, rfl⟩)
    {} r hr
  rcases this with h | h
  · simp at h
  · exact h

/-- Every row the Hungarian phase pushes beyond its input is active. -/
theorem hungarianPhase_tracked_sub (assign : List (List ℝ) → List (ℕ × ℕ))
    (cpc : ℕ → List CandidateMatch)
    (currentData previousData : List BalloonDataPoint) (s : Phase1State)
    (r : BalloonDataPoint)
    (hr : r ∈ (hungarianPhase assign cpc currentData previousData s).tracked) :
    r ∈ s.tracked ∨ r.status = .active := by
  unfold hungarianPhase at hr
  split at hr
  · exact Or.inl hr
  · try dsimp only at hr
    split_ifs at hr with h1
    · exact Or.inl hr
    · refine foldl_tracked_pres (fun r => r.status = .active) _ _ ?_ s r hr
      intro s2 a ha r' hr'
      try dsimp only at hr'
      split_ifs at hr' with hA hB
      · exact Or.inl hr'
      · exact Or.inl hr'
      · simp only [applyAddMatch, List.mem_append, List.mem_singleton] at hr'
        rcases hr' with hr' | rfl
        · exact Or.inl hr'
        · exact Or.inr rfl

/-- `mintedOf` of a map whose rows are all status-`new` is the list of their
ids. -/
theorem mintedOf_map_new {α : Type} (g : α → BalloonDataPoint)
    (hg : ∀ x, (g x).status = .new) (l : List α) :
    mintedOf (l.map g) = l.map fun x => (g x).id := by
  induction l with
  | nil => rfl
  | cons x tl ih =>
      simp only [List.map_cons, mintedOf, List.filter_cons] at ih ⊢
      rw [hg x]
      simp only [beq_self_eq_true, if_true, List.map_cons, ih]

/-- `range'` is strictly increasing. -/
theorem pairwise_lt_range_aux : ∀ (n s : ℕ), List.Pairwise (· < ·) (List.range' s n)
  | 0, _ => List.Pairwise.nil
  | n + 1, s => by
      rw [List.range'_succ]
      exact List.Pairwise.cons
        (fun x hx => by have := (List.mem_range'_1.mp hx).1; omega)
        (pairwise_lt_range_aux n (s + 1))

/-- The final minting fold of `assignNewIds`, generalised over the index
list and the accumulator: the counter advances by the number of mints and
the minted ids are the consecutive counter values. -/
theorem assignNewIds_go (currentData : List BalloonDataPoint)
    (matchedCurrIndices : List ℕ) :
    ∀ (l : List ℕ) (tracked : List BalloonDataPoint) (nextId : ℕ),
      ∃ m : ℕ,
        (l.foldl (fun acc i =>
            if i ∈ matchedCurrIndices then acc
            else
              (acc.1 ++
                [{ currentData.getD i default with
                   id := mkBalloonId acc.2, status := .new, confidence := 0.5 }],
                acc.2 + 1)) (tracked, nextId)).2 = nextId + m ∧
        mintedOf (l.foldl (fun acc i =>
            if i ∈ matchedCurrIndices then acc
            else
              (acc.1 ++
                [{ currentData.getD i default with
                   id := mkBalloonId acc.2, status := .new, confidence := 0.5 }],
                acc.2 + 1)) (tracked, nextId)).1 =
          mintedOf tracked ++ (List.range' nextId m).map mkBalloonId := by
  intro l
  induction l with
  | nil => intro tracked nextId; exact ⟨0, rfl, by simp⟩
  | cons i tl ih =>
      intro tracked nextId
      rw [List.foldl_cons]
      by_cases hi : i ∈ matchedCurrIndices
      · dsimp only
        rw [if_pos hi]
        exact ih tracked nextId
      · dsimp only
        rw [if_neg hi]
        obtain ⟨m, h2, h1⟩ := ih (tracked ++
          [{ currentData.getD i default with
             id := mkBalloonId nextId, status := .new, confidence := 0.5 }]) (nextId + 1)
        refine ⟨m + 1, by rw [h2]; omega, ?_⟩
        rw [h1, mintedOf_append]
        have hone : mintedOf [{ currentData.getD i default with
            id := mkBalloonId nextId, status := .new, confidence := 0.5 }] =
            [mkBalloonId nextId] := by
          simp [mintedOf]
        rw [hone, List.range'_succ, List.map_cons, List.append_assoc]
        rfl

/-- `assignNewIds` advances the counter by its number of mints and mints
exactly the consecutive counter values. -/
theorem assignNewIds_minted (currentData : List BalloonDataPoint)
    (matchedCurrIndices : List ℕ) (tracked : List BalloonDataPoint)
    (nextId : ℕ) :
    ∃ m : ℕ,
      (assignNewIds currentData matchedCurrIndices tracked nextId).2 = nextId + m ∧
      mintedOf (assignNewIds currentData matchedCurrIndices tracked nextId).1 =
        mintedOf tracked ++ (List.range' nextId m).map mkBalloonId := by
  unfold assignNewIds
  exact assignNewIds_go currentData matchedCurrIndices
    (List.range currentData.length) tracked nextId

/-- `trackBalloons` mints exactly the consecutive counter values from
`nextId` on and returns the advanced counter, in both the first-hour and
the matching branch. -/
theorem trackBalloons_minted (assign : List (List ℝ) → List (ℕ × ℕ))
    (currentData previousData : List BalloonDataPoint)
    (hist : String → List BalloonDataPoint) (nextId : ℕ) :
    ∃ m : ℕ,
      (trackBalloons assign currentData previousData hist nextId).2 = nextId + m ∧
      mintedOf (trackBalloons assign currentData previousData hist nextId).1 =
        (List.range' nextId m).map mkBalloonId := by
  unfold trackBalloons
  split_ifs with h
  · refine ⟨currentData.length, rfl, ?_⟩
    rw [mintedOf_map_new _ (fun _ => rfl)]
    rw [List.range'_eq_map_range, List.map_map, ← List.enum_map_fst currentData,
      List.map_map]
    rfl
  · dsimp only
    have hact : ∀ r ∈ (hungarianPhase assign
        (fun currIdx => candidatesFor hist previousData
          (currentData.getD currIdx default))
        currentData previousData
        (greedyPhase
          (fun currIdx => candidatesFor hist previousData
            (currentData.getD currIdx default))
          (prevIdDemand (fun currIdx => candidatesFor hist previousData
            (currentData.getD currIdx default)) currentData.length)
          (fun i => isContested (candidatesFor hist previousData
            (currentData.getD i default)))
          currentData)).tracked, r.status = .active := by
      intro r hr
      rcases hungarianPhase_tracked_sub _ _ _ _ _ _ hr with hg | hg
      · rcases greedyPhase_tracked _ _ _ _ r hg with ⟨i, _, cand, _, rfl⟩
        rfl
      · exact hg
    obtain ⟨m, h2, h1⟩ := assignNewIds_minted currentData _ _ nextId
    refine ⟨m, h2, ?_⟩
    rw [h1, mintedOf_of_active _ hact]
    rfl

/-- A run of tracking passes appends strictly increasing minted counter
values, all at least the starting counter and below the final one. -/
theorem runTrackerOps_minted (ops : List TrackerOp) :
    ∀ (s : CounterState), (∀ op ∈ ops, op.isTrack) →
      ∃ ks : List ℕ,
        List.Pairwise (· < ·) ks ∧
        (∀ k ∈ ks, s.nextId ≤ k ∧ k < (runTrackerOps ops s).nextId) ∧
        (runTrackerOps ops s).minted = s.minted ++ ks.map mkBalloonId ∧
        s.nextId ≤ (runTrackerOps ops s).nextId := by
  induction ops with
  | nil =>
      intro s _
      exact ⟨[], List.Pairwise.nil, by simp, by simp [runTrackerOps], le_refl _⟩
  | cons op tl ih =>
      intro s hops
      rcases op with ⟨assign, currentData, previousData, history⟩ | _ | _ | _
      case clearAll => exact absurd (hops _ (List.mem_cons_self _ _)) (by simp [TrackerOp.isTrack])
      case reset => exact absurd (hops _ (List.mem_cons_self _ _)) (by simp [TrackerOp.isTrack])
      case init => exact absurd (hops _ (List.mem_cons_self _ _)) (by simp [TrackerOp.isTrack])
      case track =>
      obtain ⟨m, h2, h1⟩ := trackBalloons_minted assign currentData previousData history s.nextId
      obtain ⟨ks, hpw, hbnd, hmint, hle⟩ :=
        ih (applyTrackerOp (.track assign currentData previousData history) s)
          (fun op' hop' => hops op' (List.mem_cons_of_mem _ hop'))
      have hrun : runTrackerOps (.track assign currentData previousData history :: tl) s =
          runTrackerOps tl (applyTrackerOp (.track assign currentData previousData history) s) := by
        simp [runTrackerOps]
      have hs' : (applyTrackerOp (.track assign currentData previousData history) s).nextId =
          s.nextId + m := h2
      have hs'm : (applyTrackerOp (.track assign currentData previousData history) s).minted =
          s.minted ++ (List.range' s.nextId m).map mkBalloonId := by
        simp only [applyTrackerOp]
        rw [h1]
      refine ⟨List.range' s.nextId m ++ ks, ?_, ?_, ?_, ?_⟩
      · rw [List.pairwise_append]
        refine ⟨pairwise_lt_range_aux m s.nextId, hpw, ?_⟩
        intro a ha b hb
        have ha' := (List.mem_range'_1.mp ha).2
        have hb' := (hbnd b hb).1
        rw [hs'] at hb'
        omega
      · intro k hk
        rw [hrun]
        rcases List.mem_append.mp hk with hk | hk
        · have hk1 := List.mem_range'_1.mp hk
          have : s.nextId + m ≤ (runTrackerOps tl
              (applyTrackerOp (.track assign currentData previousData history) s)).nextId := by
            rw [← hs']; exact hle
          omega
        · have := hbnd k hk
          rw [hs'] at this
          omega
      · rw [hrun, hmint, hs'm, List.map_append, List.append_assoc]
      · rw [hrun]
        have hle' := hle
        rw [hs'] at hle'
        omega

/-- C8 (corrected): `initialize()` rehydrates the counter floor as
`getMaxBalloonId() + 1`, and across any run of tracking passes the minted
ids are the images of strictly increasing counter values, each at least the
starting counter, so no id is issued twice within such a run.  The claim's
"never issued again ... including rebuilds" is false as stated: a rebuild
runs `resetState()`, which sets the counter back to 1 and makes later
passes re-issue old ids (see `balloon_id_reuse_counterexample`). -/
theorem balloon_ids_monotonic (ops : List TrackerOp) (s : CounterState)
    (hops : ∀ op ∈ ops, op.isTrack) :
    (applyTrackerOp .init s).nextId = getMaxBalloonId s.store + 1 ∧
    ∃ ks : List ℕ,
      List.Pairwise (· < ·) ks ∧
      (∀ k ∈ ks, s.nextId ≤ k) ∧
      (runTrackerOps ops s).minted = s.minted ++ ks.map mkBalloonId := by
  refine ⟨rfl, ?_⟩
  obtain ⟨ks, hpw, hbnd, hmint, _⟩ := runTrackerOps_minted ops s hops
  exact ⟨ks, hpw, fun k hk => (hbnd k hk).1, hmint⟩

/-- C8, witness: the issuance theorem applied to a single first-hour
tracking pass from the initial state. -/
theorem balloon_ids_monotonic_witness :
    (applyTrackerOp .init ({} : CounterState)).nextId =
      getMaxBalloonId ({} : CounterState).store + 1 ∧
    ∃ ks : List ℕ,
      List.Pairwise (· < ·) ks ∧
      (∀ k ∈ ks, ({} : CounterState).nextId ≤ k) ∧
      (runTrackerOps [.track emptyAssign [stillCurr] [] emptyHistory]
        ({} : CounterState)).minted =
        ({} : CounterState).minted ++ ks.map mkBalloonId :=
  balloon_ids_monotonic [.track emptyAssign [stillCurr] [] emptyHistory] {}
    (by
      intro op hop
      rw [List.mem_singleton] at hop
      subst hop
      trivial)

/-- C8, counterexample to the claim as stated: `track; resetState; track`
issues `balloon_0001` twice — ids are reused after a reset (the rebuild
path). -/
theorem balloon_id_reuse_counterexample :
    (runTrackerOps
      [.track emptyAssign [stillCurr] [] emptyHistory,
       .reset,
       .track emptyAssign [stillCurr] [] emptyHistory]
      ({} : CounterState)).minted = ["balloon_0001", "balloon_0001"] := by
  rfl

/-! ## Hard matching gates (C1) -/

/-- An enum member points at its element. -/
theorem enum_mem_spec {α : Type} [Inhabited α] (l : List α) (i : ℕ) (b : α)
    (h : (i, b) ∈ l.enum) : i < l.length ∧ l.getD i default = b := by
  obtain ⟨k, hk, hkeq⟩ := List.mem_iff_getElem.mp h
  rw [List.getElem_enum] at hkeq
  rw [Prod.ext_iff] at hkeq
  obtain ⟨hki, hkb⟩ := hkeq
  dsimp only at hki hkb
  have hk2 : k < l.length := by simpa using hk
  subst hki
  exact ⟨hk2, by rw [List.getD_eq_getElem l default hk2]; exact hkb⟩

/-- Every list member appears in the enumeration. -/
theorem mem_enum_of_mem {α : Type} (l : List α) (x : α) (h : x ∈ l) :
    ∃ i, (i, x) ∈ l.enum := by
  obtain ⟨i, hi, rfl⟩ := List.mem_iff_getElem.mp h
  exact ⟨i, List.mem_iff_getElem.mpr
    ⟨i, by simpa using hi, by rw [List.getElem_enum]⟩⟩

/-- The last-write-wins fold behind `prevIndexMap`: either no element
matches and the accumulator survives, or the result is the first component
of a matching element. -/
theorem foldl_lastIdx (id : String) :
    ∀ (ps : List (ℕ × BalloonDataPoint)) (acc : ℕ),
      ((∀ ib ∈ ps, ib.2.id ≠ id) ∧
        ps.foldl (fun acc ib => if ib.2.id = id then ib.1 else acc) acc = acc) ∨
      ∃ ib ∈ ps, ib.2.id = id ∧
        ps.foldl (fun acc ib => if ib.2.id = id then ib.1 else acc) acc = ib.1 := by
  intro ps
  induction ps with
  | nil => intro acc; exact Or.inl ⟨by simp, rfl⟩
  | cons p tl ih =>
      intro acc
      rw [List.foldl_cons]
      by_cases hp : p.2.id = id
      · rcases ih (if p.2.id = id then p.1 else acc) with ⟨hnone, heq⟩ | ⟨ib, hib, hid, heq⟩
        · refine Or.inr ⟨p, List.mem_cons_self _ _, hp, ?_⟩
          rw [heq, if_pos hp]
        · exact Or.inr ⟨ib, List.mem_cons_of_mem _ hib, hid, heq⟩
      · rcases ih (if p.2.id = id then p.1 else acc) with ⟨hnone, heq⟩ | ⟨ib, hib, hid, heq⟩
        · refine Or.inl ⟨?_, by rw [heq, if_neg hp]⟩
          intro ib hib
          rcases List.mem_cons.mp hib with rfl | hib
          · exact hp
          · exact hnone ib hib
        · exact Or.inr ⟨ib, List.mem_cons_of_mem _ hib, hid, heq⟩

/-- With duplicate-free ids, `prevIndexMap` points back at the element
itself. -/
theorem lastIndexOf_spec (l : List BalloonDataPoint) (p : BalloonDataPoint)
    (hp : p ∈ l) (hids : (l.map (·.id)).Nodup) :
    lastIndexOf l p.id < l.length ∧ l.getD (lastIndexOf l p.id) default = p := by
  rcases foldl_lastIdx p.id l.enum 0 with ⟨hnone, _⟩ | ⟨ib, hib, hid, heq⟩
  · obtain ⟨i, hi⟩ := mem_enum_of_mem l p hp
    exact absurd rfl (hnone (i, p) hi)
  · have hdef : lastIndexOf l p.id = ib.1 := heq
    obtain ⟨hlt, hgetd⟩ := enum_mem_spec l ib.1 ib.2 hib
    have hib2 : ib.2 = p := by
      refine List.inj_on_of_nodup_map hids ?_ hp hid
      rw [← hgetd, List.getD_eq_getElem _ _ hlt]
      exact List.getElem_mem _
    refine ⟨by rw [hdef]; exact hlt, ?_⟩
    rw [hdef, hgetd, hib2]

/-- Membership in a candidate list: the candidate really is a previous
balloon, carries its `prevIndexMap` index, its cost is the (finite) match
score, and that cost passed the acceptance threshold. -/
theorem candidatesFor_mem (hist : String → List BalloonDataPoint)
    (previousData : List BalloonDataPoint) (curr : BalloonDataPoint)
    (cand : CandidateMatch) (h : cand ∈ candidatesFor hist previousData curr) :
    cand.prev ∈ previousData ∧
    cand.prevIdx = lastIndexOf previousData cand.prev.id ∧
    calculateMatchScore curr cand.prev (hist cand.prev.id) = some cand.cost ∧
    cand.cost ≤ MAX_ACCEPTABLE_COST := by
  unfold candidatesFor at h
  rw [List.mem_mergeSort, List.mem_filterMap] at h
  obtain ⟨node, hnode, heq⟩ := h
  rcases hscore : calculateMatchScore curr node (hist node.id) with _ | cost <;>
    rw [hscore] at heq
  · exact absurd heq (by simp)
  · dsimp only at heq
    split_ifs at heq with hle
    obtain rfl := Option.some.inj heq
    exact ⟨List.mem_of_mem_filter hnode, rfl, hscore, hle⟩

/-- A chain of three guarded rejections returning `some` refutes all three
guards. -/
theorem opt_gate_chain {α : Type} {c1 c2 c3 : Prop}
    [Decidable c1] [Decidable c2] [Decidable c3] {x cost : α}
    (h : (if c1 then (none : Option α) else if c2 then none
          else if c3 then none else some x) = some cost) :
    ¬c1 ∧ ¬c2 ∧ ¬c3 := by
  refine ⟨fun hc => ?_, fun hc => ?_, fun hc => ?_⟩ <;> simp [hc] at h

/-- The three hard gates of `calculateMatchScore`: a finite score implies
distance at most 600 km, altitude delta at most 10 km, and — whenever an
effective previous velocity faster than 10 km/h exists — an implied heading
change of at most 45°. -/
theorem score_gates (curr prev : BalloonDataPoint)
    (history : List BalloonDataPoint) (cost : ℝ)
    (h : calculateMatchScore curr prev history = some cost) :
    calculateDistance curr.latitude curr.longitude prev.latitude prev.longitude ≤
      MAX_DISTANCE_KM_PER_HOUR ∧
    |curr.altitude_km - prev.altitude_km| ≤ MAX_ALTITUDE_DELTA_KM ∧
    ∀ v, effectiveVelocity prev history = some v → v.speed_kmh > 10 →
      angleDifference v.direction_deg (calculateVelocity prev curr).direction_deg ≤
        MAX_DIRECTION_CHANGE_DEG := by
  classical
  simp only [calculateMatchScore] at h
  obtain ⟨h1, h2, h3⟩ := opt_gate_chain h
  refine ⟨not_lt.mp h1, not_lt.mp h2, ?_⟩
  intro v hv hfast
  rw [hv] at h3
  by_contra hgt
  push_neg at hgt
  apply h3
  have hp : hasPrediction (some v) := by
    show v.speed_kmh > 0
    linarith
  have hf : (some v).elim False (fun v => v.speed_kmh > 10) := hfast
  refine ⟨hp, hf, ?_⟩
  rw [if_pos ⟨hp, hf⟩]
  exact hgt

/-- A sub-sentinel Hungarian matrix entry is the cost of a listed conflict
candidate bound to that column. -/
theorem hungarianMatrix_entry (conflicting unmatched : List ℕ)
    (cc : ℕ → List CandidateMatch) (k i j : ℕ) (hik : i < k) (hjk : j < k)
    (hlt : ((hungarianMatrix conflicting unmatched cc k).getD i []).getD j
        INFINITY_COST < INFINITY_COST) :
    ∃ c ∈ cc (conflicting.getD i 0),
      unmatched.indexOf c.prevIdx = j ∧
      ((hungarianMatrix conflicting unmatched cc k).getD i []).getD j
        INFINITY_COST = c.cost := by
  have hrow : (hungarianMatrix conflicting unmatched cc k).getD i [] =
      (List.range k).map (fun j =>
        if i < conflicting.length then
          match (cc (conflicting.getD i 0)).find? (fun c =>
            unmatched.indexOf c.prevIdx == j) with
          | some c => c.cost
          | none => INFINITY_COST
        else INFINITY_COST) := by
    unfold hungarianMatrix
    rw [List.getD_eq_getElem _ _ (by simpa using hik)]
    simp only [List.getElem_map, List.getElem_range]
  have hentry : ((hungarianMatrix conflicting unmatched cc k).getD i []).getD j
      INFINITY_COST =
      (if i < conflicting.length then
        match (cc (conflicting.getD i 0)).find? (fun c =>
          unmatched.indexOf c.prevIdx == j) with
        | some c => c.cost
        | none => INFINITY_COST
      else INFINITY_COST) := by
    rw [hrow, List.getD_eq_getElem _ _ (by simpa using hjk)]
    simp only [List.getElem_map, List.getElem_range]
  rw [hentry] at hlt ⊢
  split_ifs at hlt ⊢ with hic
  · rcases hfind : (cc (conflicting.getD i 0)).find? (fun c =>
        unmatched.indexOf c.prevIdx == j) with _ | c <;> rw [hfind] at hlt ⊢
    · exact absurd hlt (lt_irrefl _)
    · have hc := List.find?_some hfind
      have hcm := List.mem_of_find?_eq_some hfind
      exact ⟨c, hcm, by simpa using hc, rfl⟩
  · exact absurd hlt (lt_irrefl _)

set_option maxHeartbeats 1000000 in
/-- Every row the Hungarian phase pushes pairs a conflicting current index
with a listed conflict candidate's previous index and cost. -/
theorem hungarianPhase_tracked_mem (assign : List (List ℝ) → List (ℕ × ℕ))
    (cpc : ℕ → List CandidateMatch)
    (currentData previousData : List BalloonDataPoint) (s : Phase1State)
    (r : BalloonDataPoint)
    (hr : r ∈ (hungarianPhase assign cpc currentData previousData s).tracked) :
    r ∈ s.tracked ∨
      ∃ currIdx ∈ s.conflictingCurrIndices,
        ∃ c ∈ conflictCandidates cpc s.matchedPrevIds currIdx,
          r = addMatchRow (currentData.getD currIdx default)
            (previousData.getD c.prevIdx default) c.cost := by
  unfold hungarianPhase at hr
  split at hr
  · exact Or.inl hr
  · try dsimp only at hr
    split_ifs at hr with h1
    · exact Or.inl hr
    · refine foldl_tracked_pres
        (fun r => ∃ currIdx ∈ s.conflictingCurrIndices,
          ∃ c ∈ conflictCandidates cpc s.matchedPrevIds currIdx,
            r = addMatchRow (currentData.getD currIdx default)
              (previousData.getD c.prevIdx default) c.cost) _ _ ?_ s r hr
      intro s2 ij hij r' hr'
      try dsimp only at hr'
      set UM := dedupFirst (s.conflictingCurrIndices.flatMap fun i =>
        ((conflictCandidates cpc s.matchedPrevIds i).map (·.prevIdx))) with hUMdef
      set K := max s.conflictingCurrIndices.length UM.length with hKdef
      split_ifs at hr' with hA hB
      · exact Or.inl hr'
      · exact Or.inl hr'
      · simp only [applyAddMatch, List.mem_append, List.mem_singleton] at hr'
        rcases hr' with hr' | rfl
        · exact Or.inl hr'
        · push_neg at hA
          obtain ⟨hA1, hA2⟩ := hA
          obtain ⟨c, hcm, hcj, hcost⟩ := hungarianMatrix_entry
            s.conflictingCurrIndices UM
            (conflictCandidates cpc s.matchedPrevIds) K ij.1 ij.2
            (by rw [hKdef]; exact lt_of_lt_of_le hA1 (le_max_left _ _))
            (by rw [hKdef]; exact lt_of_lt_of_le hA2 (le_max_right _ _))
            (not_le.mp hB)
          have hpidx : UM.getD ij.2 0 = c.prevIdx := by
            rw [← hcj, List.getD_eq_getElem _ _ (by rw [hcj]; exact hA2)]
            exact List.getElem_indexOf (by rw [hcj]; exact hA2)
          refine Or.inr ⟨s.conflictingCurrIndices.getD ij.1 0,
            ?_, c, hcm, ?_⟩
          · rw [List.getD_eq_getElem _ _ hA1]
            exact List.getElem_mem _
          · rw [hpidx, hcost]

/-- The new-id pass only appends status-`new` rows. -/
theorem assignNewIds_mem_go (currentData : List BalloonDataPoint)
    (matchedCurrIndices : List ℕ) :
    ∀ (l : List ℕ) (tracked : List BalloonDataPoint) (nextId : ℕ)
      (r : BalloonDataPoint),
      r ∈ (l.foldl (fun acc i =>
          if i ∈ matchedCurrIndices then acc
          else
            (acc.1 ++
              [{ currentData.getD i default with
                 id := mkBalloonId acc.2, status := .new, confidence := 0.5 }],
              acc.2 + 1)) (tracked, nextId)).1 →
      r ∈ tracked ∨ r.status = .new := by
  intro l
  induction l with
  | nil => intro tracked nextId r hr; exact Or.inl hr
  | cons i tl ih =>
      intro tracked nextId r hr
      rw [List.foldl_cons] at hr
      by_cases hi : i ∈ matchedCurrIndices
      · rw [if_pos hi] at hr
        exact ih tracked nextId r hr
      · rw [if_neg hi] at hr
        rcases ih _ _ r hr with hmem | hnew
        · rcases List.mem_append.mp hmem with hmem | hmem
          · exact Or.inl hmem
          · rw [List.mem_singleton] at hmem
            subst hmem
            exact Or.inr rfl
        · exact Or.inr hnew

/-- Rows of `assignNewIds` are input rows or freshly minted `new` rows. -/
theorem assignNewIds_mem (currentData : List BalloonDataPoint)
    (matchedCurrIndices : List ℕ) (tracked : List BalloonDataPoint)
    (nextId : ℕ) (r : BalloonDataPoint)
    (hr : r ∈ (assignNewIds currentData matchedCurrIndices tracked nextId).1) :
    r ∈ tracked ∨ r.status = .new := by
  unfold assignNewIds at hr
  exact assignNewIds_mem_go currentData matchedCurrIndices
    (List.range currentData.length) tracked nextId r hr

/-- C1 (amended): for every active row `trackBalloons` emits, the matched
previous balloon is a real previous-hour row with the same id, the match
carries a finite accepted score, and the gates the code actually enforces
hold between the pair of consecutive positions: distance ≤ 600 km
(`MAX_DISTANCE_KM_PER_HOUR`), altitude delta ≤ 10 km
(`MAX_ALTITUDE_DELTA_KM`), and the heading-change gate ≤ 45°
(`MAX_DIRECTION_CHANGE_DEG`) only when the code derives an effective prior
velocity faster than 10 km/h — the average of a ≥ 2-row history, else the
stored pair under JavaScript truthiness (both components present and
nonzero).  A stored heading of exactly 0° is falsy, yields no effective
velocity, and silently disables the heading gate, so the unconditional
45-degree claim is false of the program (see the counterexample).  The
duplicate-free-ids hypothesis reflects the `(id, timestamp)` primary key of
the table the previous hour is read from. -/
theorem tracker_hard_gates (assign : List (List ℝ) → List (ℕ × ℕ))
    (currentData previousData : List BalloonDataPoint)
    (hist : String → List BalloonDataPoint) (nextId : ℕ)
    (hids : (previousData.map (·.id)).Nodup) :
    ∀ r ∈ (trackBalloons assign currentData previousData hist nextId).1,
      r.status = .active →
      ∃ curr prev cost, prev ∈ previousData ∧
        r = addMatchRow curr prev cost ∧ r.id = prev.id ∧
        calculateMatchScore curr prev (hist prev.id) = some cost ∧
        calculateDistance curr.latitude curr.longitude
          prev.latitude prev.longitude ≤ MAX_DISTANCE_KM_PER_HOUR ∧
        |curr.altitude_km - prev.altitude_km| ≤ MAX_ALTITUDE_DELTA_KM ∧
        ∀ v, effectiveVelocity prev (hist prev.id) = some v →
          v.speed_kmh > 10 →
          angleDifference v.direction_deg
            (calculateVelocity prev curr).direction_deg ≤
            MAX_DIRECTION_CHANGE_DEG := by
  intro r hr hact
  unfold trackBalloons at hr
  split_ifs at hr with hprev
  · exfalso
    obtain ⟨ib, _, rfl⟩ := List.mem_map.mp hr
    simp at hact
  · try dsimp only at hr
    rcases assignNewIds_mem _ _ _ _ _ hr with hmem | hnew
    · rcases hungarianPhase_tracked_mem _ _ _ _ _ _ hmem with
        hg | ⟨currIdx, hci, c, hcc, rfl⟩
      · obtain ⟨i, hi, cand, hcand, rfl⟩ := greedyPhase_tracked _ _ _ _ r hg
        obtain ⟨hpmem, hpidx, hscore, hcostle⟩ := candidatesFor_mem _ _ _ _ hcand
        obtain ⟨g1, g2, g3⟩ := score_gates _ _ _ _ hscore
        exact ⟨currentData.getD i default, cand.prev, cand.cost,
          hpmem, rfl, rfl, hscore, g1, g2, g3⟩
      · have hcc' := (List.mem_filter.mp hcc).1
        obtain ⟨hpmem, hpidx, hscore, hcostle⟩ := candidatesFor_mem _ _ _ _ hcc'
        obtain ⟨hlt, hgetd⟩ := lastIndexOf_spec previousData c.prev hpmem hids
        have hpd : previousData.getD c.prevIdx default = c.prev := by
          rw [hpidx]; exact hgetd
        obtain ⟨g1, g2, g3⟩ := score_gates _ _ _ _ hscore
        exact ⟨currentData.getD currIdx default, c.prev, c.cost,
          hpmem, by rw [hpd], by rw [hpd]; rfl, hscore, g1, g2, g3⟩
    · rw [hact] at hnew
      exact Status.noConfusion hnew

/-- C1, witness: the hard-gate theorem applied to one current observation
against one previous balloon. -/
theorem tracker_hard_gates_witness :
    ([stillPrev].map (·.id)).Nodup ∧
    ∀ r ∈ (trackBalloons emptyAssign [stillCurr] [stillPrev] emptyHistory 2).1,
      r.status = .active →
      ∃ curr prev cost, prev ∈ [stillPrev] ∧
        r = addMatchRow curr prev cost ∧ r.id = prev.id ∧
        calculateMatchScore curr prev (emptyHistory prev.id) = some cost ∧
        calculateDistance curr.latitude curr.longitude
          prev.latitude prev.longitude ≤ MAX_DISTANCE_KM_PER_HOUR ∧
        |curr.altitude_km - prev.altitude_km| ≤ MAX_ALTITUDE_DELTA_KM ∧
        ∀ v, effectiveVelocity prev (emptyHistory prev.id) = some v →
          v.speed_kmh > 10 →
          angleDifference v.direction_deg
            (calculateVelocity prev curr).direction_deg ≤
            MAX_DIRECTION_CHANGE_DEG :=
  ⟨by simp, tracker_hard_gates emptyAssign [stillCurr] [stillPrev]
    emptyHistory 2 (by simp)⟩

/-- Haversine core along a meridian: for a half-angle in `(0, π/2)` the
`atan2` of the square roots recovers the half-angle. -/
theorem dist_south_aux (φ : ℝ) (h1 : 0 < φ) (h2 : φ < Real.pi / 2) :
    2 * atan2 (Real.sqrt (Real.sin φ * Real.sin φ))
      (Real.sqrt (1 - Real.sin φ * Real.sin φ)) = 2 * φ := by
  have hsnn : 0 ≤ Real.sin φ :=
    Real.sin_nonneg_of_nonneg_of_le_pi h1.le (by linarith [Real.pi_pos])
  have hcnn : 0 ≤ Real.cos φ :=
    Real.cos_nonneg_of_mem_Icc ⟨by linarith [Real.pi_pos], h2.le⟩
  have hpyth := Real.sin_sq_add_cos_sq φ
  have h1ms : 1 - Real.sin φ * Real.sin φ = Real.cos φ * Real.cos φ := by
    rw [← pow_two, ← pow_two]
    linarith
  have hs : Real.sqrt (Real.sin φ * Real.sin φ) = Real.sin φ :=
    Real.sqrt_mul_self hsnn
  have hc : Real.sqrt (1 - Real.sin φ * Real.sin φ) = Real.cos φ := by
    rw [h1ms]
    exact Real.sqrt_mul_self hcnn
  rw [hs, hc]
  unfold atan2
  have hmk : (⟨Real.cos φ, Real.sin φ⟩ : ℂ) =
      Complex.cos ↑φ + Complex.sin ↑φ * Complex.I := by
    rw [Complex.mk_eq_add_mul_I, Complex.ofReal_cos, Complex.ofReal_sin]
  rw [hmk, Complex.arg_cos_add_sin_mul_I
    (Set.mem_Ioc.mpr ⟨by linarith [Real.pi_pos], by linarith [Real.pi_pos]⟩)]

/-- The haversine distance of the due-south pair is exactly one degree of
arc: `EARTH_RADIUS_KM * (π / 180)` km (≈ 111.2 km). -/
theorem dist_south : calculateDistance southCurr.latitude southCurr.longitude
    southPrev.latitude southPrev.longitude =
    EARTH_RADIUS_KM * (Real.pi / 180) := by
  show calculateDistance (-1) 0 0 0 = _
  simp only [calculateDistance, toRadians]
  rw [show ((0 : ℝ) - -1) * (Real.pi / 180) / 2 = Real.pi / 360 from by ring]
  rw [show ((0 : ℝ) - 0) * (Real.pi / 180) / 2 = 0 from by ring, Real.sin_zero]
  rw [mul_zero, add_zero]
  rw [dist_south_aux (Real.pi / 360) (by positivity)
    (by linarith [Real.pi_pos])]
  ring

/-- The bearing the tracker computes from `southPrev` to any row at the
position of `southCurr` is exactly due south, 180°. -/
theorem dir_south_aux (prev curr : BalloonDataPoint)
    (hplat : prev.latitude = 0) (hplon : prev.longitude = 0)
    (hclat : curr.latitude = -1) (hclon : curr.longitude = 0) :
    (calculateVelocity prev curr).direction_deg = 180 := by
  simp only [calculateVelocity, atan2]
  rw [hplat, hplon, hclat, hclon]
  simp only [toRadians]
  rw [show ((0 : ℝ) - 0) * (Real.pi / 180) = 0 from by ring,
    show ((0 : ℝ)) * (Real.pi / 180) = 0 from by ring,
    Real.sin_zero, Real.cos_zero]
  rw [zero_mul, zero_mul, sub_zero, one_mul]
  have hsneg : Real.sin ((-1 : ℝ) * (Real.pi / 180)) < 0 := by
    rw [show ((-1 : ℝ)) * (Real.pi / 180) = -(Real.pi / 180) from by ring,
      Real.sin_neg]
    have hp : 0 < Real.sin (Real.pi / 180) :=
      Real.sin_pos_of_pos_of_lt_pi (by positivity) (by linarith [Real.pi_pos])
    linarith
  have hmk : (⟨Real.sin ((-1 : ℝ) * (Real.pi / 180)), 0⟩ : ℂ) =
      ((Real.sin ((-1 : ℝ) * (Real.pi / 180)) : ℝ) : ℂ) := rfl
  rw [hmk, Complex.arg_ofReal_of_neg hsneg]
  rw [show Real.pi * 180 / Real.pi + 360 = 540 from by
    field_simp
    norm_num]
  unfold jsMod
  rw [show ⌊(540 : ℝ) / 360⌋ = 1 from by rw [Int.floor_eq_iff] <;> norm_num]
  norm_num

/-- The fold of `angleDifference` on 0° versus 180° is 180°. -/
theorem angleDiff_south : angleDifference 0 180 = 180 := by
  simp only [angleDifference, jsMod]
  rw [show |(0 : ℝ) - 180| = 180 from by rw [abs_sub_comm]; norm_num]
  rw [show ⌊(180 : ℝ) / 360⌋ = 0 from by rw [Int.floor_eq_iff] <;> norm_num]
  norm_num

/-- JavaScript truthiness gives `southPrev` no effective velocity: the
stored heading 0 is falsy, so the `&&` fallback fails despite speed 50. -/
theorem effVel_south : effectiveVelocity southPrev [] = none := by
  simp [effectiveVelocity, jsTruthy, jsOr0, southPrev]

/-- The due-south cost clears both the greedy and the listing thresholds. -/
theorem southCost_le : southCost < GREEDY_COST_THRESHOLD ∧
    southCost ≤ MAX_ACCEPTABLE_COST := by
  have hm := min_le_left (1 : ℝ)
    ((EARTH_RADIUS_KM * (Real.pi / 180) / TYPICAL_DISTANCE_KM_PER_HOUR) ^ 2)
  unfold southCost SCORING_WEIGHT_distance GREEDY_COST_THRESHOLD
    MAX_ACCEPTABLE_COST
  constructor <;> linarith

/-- The scorer accepts the due-south pair at the finite cost `southCost`:
no effective velocity means the heading gate is skipped. -/
theorem score_south : calculateMatchScore southCurr southPrev [] =
    some southCost := by
  have hdist := dist_south
  have hvelS := effVel_south
  have haltS : |southCurr.altitude_km - southPrev.altitude_km| = 0 := by
    show |(10 : ℝ) - 10| = 0
    norm_num
  have hg1 : ¬ (EARTH_RADIUS_KM * (Real.pi / 180) > MAX_DISTANCE_KM_PER_HOUR) := by
    unfold EARTH_RADIUS_KM MAX_DISTANCE_KM_PER_HOUR
    intro h
    have hpi := Real.pi_lt_315
    linarith
  have hg2 : ¬ ((0 : ℝ) > MAX_ALTITUDE_DELTA_KM) := by
    norm_num [MAX_ALTITUDE_DELTA_KM]
  simp only [calculateMatchScore]
  rw [hdist, hvelS, haltS, if_neg hg1, if_neg hg2]
  unfold southCost
  norm_num [hasPrediction, MAX_ALTITUDE_DELTA_KM, SCORING_WEIGHT_distance,
    SCORING_WEIGHT_direction, SCORING_WEIGHT_speed, SCORING_WEIGHT_altitude]

/-- The due-south candidate list: exactly the previous balloon at the
finite cost `southCost`. -/
theorem cand_south : candidatesFor (fun _ => []) [southPrev]
    ([southCurr].getD 0 default) = [⟨0, southPrev, southCost⟩] := by
  rw [show [southCurr].getD 0 default = southCurr from rfl]
  unfold candidatesFor
  have h1 : southCurr.longitude - searchRadius ≤ southPrev.longitude := by
    show (0 : ℝ) - MAX_DISTANCE_KM_PER_HOUR * 1.5 / 111 ≤ 0
    norm_num [MAX_DISTANCE_KM_PER_HOUR]
  have h2 : southPrev.longitude ≤ southCurr.longitude + searchRadius := by
    show (0 : ℝ) ≤ 0 + MAX_DISTANCE_KM_PER_HOUR * 1.5 / 111
    norm_num [MAX_DISTANCE_KM_PER_HOUR]
  have h3 : southCurr.latitude - searchRadius ≤ southPrev.latitude := by
    show (-1 : ℝ) - MAX_DISTANCE_KM_PER_HOUR * 1.5 / 111 ≤ 0
    norm_num [MAX_DISTANCE_KM_PER_HOUR]
  have h4 : southPrev.latitude ≤ southCurr.latitude + searchRadius := by
    show (0 : ℝ) ≤ -1 + MAX_DISTANCE_KM_PER_HOUR * 1.5 / 111
    norm_num [MAX_DISTANCE_KM_PER_HOUR]
  have hfil : [southPrev].filter (fun p =>
      decide (southCurr.longitude - searchRadius ≤ p.longitude) &&
      decide (p.longitude ≤ southCurr.longitude + searchRadius) &&
      decide (southCurr.latitude - searchRadius ≤ p.latitude) &&
      decide (p.latitude ≤ southCurr.latitude + searchRadius)) = [southPrev] := by
    rw [List.filter_cons, List.filter_nil]
    simp [h1, h2, h3, h4]
  try dsimp only
  rw [hfil, List.filterMap_cons]
  try dsimp only
  rw [score_south]
  dsimp only
  rw [if_pos southCost_le.2, List.filterMap_nil]
  try dsimp only
  rw [List.mergeSort_singleton]
  rfl

/-- The tracker greedy-matches the due-south observation onto `southPrev`
and emits the matched row. -/
theorem track_south : trackBalloons emptyAssign [southCurr] [southPrev]
    (fun _ => []) 2 =
    ([addMatchRow ([southCurr].getD 0 default) southPrev southCost], 2) := by
  unfold trackBalloons
  rw [if_neg (by simp)]
  dsimp only
  unfold greedyPhase
  rw [show List.range ([southCurr].length) = [0] from rfl, List.foldl_cons,
    List.foldl_nil]
  unfold greedyStep
  dsimp only
  rw [cand_south]
  dsimp only
  have hdem : prevIdDemand (fun currIdx => candidatesFor (fun _ => []) [southPrev]
      ([southCurr].getD currIdx default)) [southCurr].length southPrev.id = 1 := by
    unfold prevIdDemand
    rw [show List.range ([southCurr].length) = [0] from rfl, List.filter_cons]
    dsimp only
    rw [cand_south]
    rfl
  rw [if_neg (by rw [hdem]; omega)]
  rw [if_neg (fun h => h.2)]
  rw [if_pos ⟨List.not_mem_nil _, by
    show |(10 : ℝ) - 10| < GREEDY_ALTITUDE_THRESHOLD
    norm_num [GREEDY_ALTITUDE_THRESHOLD], southCost_le.1⟩]
  rfl

/-- C1, counterexample to the claim as stated: the previous balloon stores
speed 50 km/h (> 10) with heading exactly 0°; JavaScript truthiness makes
the code derive no effective velocity from the stored pair, so the
45-degree heading gate is skipped entirely: the observation one degree due
south (implied heading 180°, change 180° > 45°) is greedy-matched at a
finite cost and emitted as an active row — the claim demands rejection
with infinite cost. -/
theorem tracker_heading_gate_counterexample :
    jsOr0 southPrev.speed_kmh > 10 ∧
    effectiveVelocity southPrev [] = none ∧
    ∃ r ∈ (trackBalloons emptyAssign [southCurr] [southPrev]
        (fun _ => []) 2).1,
      r.status = .active ∧ r.id = southPrev.id ∧
      angleDifference (jsOr0 southPrev.direction_deg)
        (calculateVelocity southPrev r).direction_deg >
        MAX_DIRECTION_CHANGE_DEG := by
  refine ⟨by show (50 : ℝ) > 10; norm_num, effVel_south,
    addMatchRow ([southCurr].getD 0 default) southPrev southCost,
    ?_, rfl, rfl, ?_⟩
  · rw [track_south]
    exact List.mem_singleton.mpr rfl
  · rw [dir_south_aux southPrev
      (addMatchRow ([southCurr].getD 0 default) southPrev southCost)
      rfl rfl rfl rfl]
    rw [show jsOr0 southPrev.direction_deg = 0 from rfl]
    rw [angleDiff_south]
    norm_num [MAX_DIRECTION_CHANGE_DEG]

/-! ## Store upsert algebra (shared by C2 and C9) -/

/-- A generic invariant along any fold. -/
theorem foldl_inv {α β : Type} (P : β → Prop) (F : β → α → β) :
    ∀ (l : List α) (b : β), P b → (∀ b' a, a ∈ l → P b' → P (F b' a)) →
      P (l.foldl F b) := by
  intro l
  induction l with
  | nil => intro b hb _; exact hb
  | cons a tl ih =>
      intro b hb hF
      rw [List.foldl_cons]
      exact ih _ (hF b a (List.mem_cons_self _ _) hb)
        (fun b' a' ha' => hF b' a' (List.mem_cons_of_mem _ ha'))

/-- A row of a snapshot upsert result is an old row or the upserted row. -/
theorem mem_upsertSnapshot (l : List Snapshot) (s r : Snapshot)
    (hr : r ∈ upsertSnapshot l s) : r ∈ l ∨ r = s := by
  induction l with
  | nil =>
      unfold upsertSnapshot at hr
      exact Or.inr (List.mem_singleton.mp hr)
  | cons h tl ih =>
      unfold upsertSnapshot at hr
      split_ifs at hr with hpk
      · rcases List.mem_cons.mp hr with rfl | hr
        · exact Or.inr rfl
        · exact Or.inl (List.mem_cons_of_mem _ hr)
      · rcases List.mem_cons.mp hr with rfl | hr
        · exact Or.inl (List.mem_cons_self _ _)
        · rcases ih hr with h' | h'
          · exact Or.inl (List.mem_cons_of_mem _ h')
          · exact Or.inr h'

/-- The upserted row is always present afterwards. -/
theorem self_mem_upsertTracked (t : List TrackedRow) (b : TrackedRow) :
    b ∈ upsertTracked t b := by
  induction t with
  | nil => unfold upsertTracked; exact List.mem_singleton.mpr rfl
  | cons h tl ih =>
      unfold upsertTracked
      split_ifs with hpk
      · exact List.mem_cons_self _ _
      · exact List.mem_cons_of_mem _ ih

/-- The upserted snapshot is always present afterwards. -/
theorem self_mem_upsertSnapshot (l : List Snapshot) (s : Snapshot) :
    s ∈ upsertSnapshot l s := by
  induction l with
  | nil => unfold upsertSnapshot; exact List.mem_singleton.mpr rfl
  | cons h tl ih =>
      unfold upsertSnapshot
      split_ifs with hpk
      · exact List.mem_cons_self _ _
      · exact List.mem_cons_of_mem _ ih

/-- A row whose primary key differs from the upserted one survives. -/
theorem mem_upsertTracked_of_ne (t : List TrackedRow) (b r : TrackedRow)
    (hr : r ∈ t) (hne : (r.id, r.timestamp) ≠ (b.id, b.timestamp)) :
    r ∈ upsertTracked t b := by
  induction t with
  | nil => cases hr
  | cons h tl ih =>
      unfold upsertTracked
      split_ifs with hpk
      · rcases List.mem_cons.mp hr with rfl | hr'
        · exact absurd (by rw [hpk.1, hpk.2]) hne
        · exact List.mem_cons_of_mem _ hr'
      · rcases List.mem_cons.mp hr with rfl | hr'
        · exact List.mem_cons_self _ _
        · exact List.mem_cons_of_mem _ (ih hr')

/-- Upserting a row already present under a duplicate-free primary key is a
no-op. -/
theorem upsertTracked_eq_of_mem (t : List TrackedRow) (b : TrackedRow)
    (hnd : (t.map fun r => (r.id, r.timestamp)).Nodup) (hb : b ∈ t) :
    upsertTracked t b = t := by
  induction t with
  | nil => cases hb
  | cons h tl ih =>
      rw [List.map_cons, List.nodup_cons] at hnd
      unfold upsertTracked
      rcases List.mem_cons.mp hb with rfl | hb'
      · rw [if_pos ⟨rfl, rfl⟩]
      · by_cases hpk : h.id = b.id ∧ h.timestamp = b.timestamp
        · exfalso
          apply hnd.1
          rw [hpk.1, hpk.2]
          exact List.mem_map_of_mem _ hb'
        · rw [if_neg hpk, ih hnd.2 hb']

/-- Upserting a snapshot already present under duplicate-free timestamps is
a no-op. -/
theorem upsertSnapshot_eq_of_mem (l : List Snapshot) (s : Snapshot)
    (hnd : (l.map (·.timestamp)).Nodup) (hs : s ∈ l) :
    upsertSnapshot l s = l := by
  induction l with
  | nil => cases hs
  | cons h tl ih =>
      rw [List.map_cons, List.nodup_cons] at hnd
      unfold upsertSnapshot
      rcases List.mem_cons.mp hs with rfl | hs'
      · rw [if_pos rfl]
      · by_cases hpk : h.timestamp = s.timestamp
        · exfalso
          apply hnd.1
          rw [hpk]
          exact List.mem_map_of_mem _ hs'
        · rw [if_neg hpk, ih hnd.2 hs']

/-- The primary keys after an upsert: unchanged (a key matched) or the new
key appended (and it was absent). -/
theorem upsertTracked_pks (t : List TrackedRow) (b : TrackedRow) :
    ((upsertTracked t b).map fun r => (r.id, r.timestamp)) =
      (t.map fun r => (r.id, r.timestamp)) ∨
    (((upsertTracked t b).map fun r => (r.id, r.timestamp)) =
      (t.map fun r => (r.id, r.timestamp)) ++ [(b.id, b.timestamp)] ∧
      (b.id, b.timestamp) ∉ (t.map fun r => (r.id, r.timestamp))) := by
  induction t with
  | nil => exact Or.inr ⟨by unfold upsertTracked; simp, by simp⟩
  | cons h tl ih =>
      unfold upsertTracked
      split_ifs with hpk
      · left
        simp [hpk.1, hpk.2]
      · rcases ih with h' | ⟨h', hnm⟩
        · left
          simp [h']
        · right
          constructor
          · simp [h']
          · simp only [List.map_cons, List.mem_cons]
            rintro (heq | hm)
            · exact hpk ⟨(Prod.ext_iff.mp heq.symm).1, (Prod.ext_iff.mp heq.symm).2⟩
            · exact hnm hm

/-- Upserts preserve duplicate-freeness of the primary keys. -/
theorem upsertTracked_nodup (t : List TrackedRow) (b : TrackedRow)
    (hnd : (t.map fun r => (r.id, r.timestamp)).Nodup) :
    ((upsertTracked t b).map fun r => (r.id, r.timestamp)).Nodup := by
  rcases upsertTracked_pks t b with h | ⟨h, hnm⟩ <;> rw [h]
  · exact hnd
  · simp [List.nodup_append, hnd, hnm]

/-- Snapshot upsert key shape. -/
theorem upsertSnapshot_pks (l : List Snapshot) (s : Snapshot) :
    ((upsertSnapshot l s).map (·.timestamp)) = (l.map (·.timestamp)) ∨
    (((upsertSnapshot l s).map (·.timestamp)) =
      (l.map (·.timestamp)) ++ [s.timestamp] ∧
      s.timestamp ∉ (l.map (·.timestamp))) := by
  induction l with
  | nil => exact Or.inr ⟨by unfold upsertSnapshot; simp, by simp⟩
  | cons h tl ih =>
      unfold upsertSnapshot
      split_ifs with hpk
      · left
        simp [hpk]
      · rcases ih with h' | ⟨h', hnm⟩
        · left
          simp [h']
        · right
          refine ⟨by simp [h'], ?_⟩
          simp only [List.map_cons, List.mem_cons]
          rintro (heq | hm)
          · exact hpk heq.symm
          · exact hnm hm

/-- Snapshot upserts preserve duplicate-freeness of timestamps. -/
theorem upsertSnapshot_nodup (l : List Snapshot) (s : Snapshot)
    (hnd : (l.map (·.timestamp)).Nodup) :
    ((upsertSnapshot l s).map (·.timestamp)).Nodup := by
  rcases upsertSnapshot_pks l s with h | ⟨h, hnm⟩ <;> rw [h]
  · exact hnd
  · simp [List.nodup_append, hnd, hnm]

/-- An upsert leaves the rows at any other timestamp untouched. -/
theorem filter_upsertTracked_ne (t : List TrackedRow) (b : TrackedRow) (τ : ℤ)
    (hb : b.timestamp ≠ τ) :
    (upsertTracked t b).filter (fun r => decide (r.timestamp = τ)) =
    t.filter (fun r => decide (r.timestamp = τ)) := by
  induction t with
  | nil =>
      unfold upsertTracked
      simp [hb]
  | cons h tl ih =>
      unfold upsertTracked
      split_ifs with hpk
      · have hh : h.timestamp ≠ τ := by rw [hpk.2]; exact hb
        simp [List.filter_cons, hb, hh]
      · simp [List.filter_cons, ih]

/-- The whole tracked-save leaves rows at any timestamp it does not write
untouched. -/
theorem filter_foldl_upsert_ne (τ : ℤ) (bs : List BalloonDataPoint)
    (hbs : ∀ b ∈ bs, b.timestamp ≠ τ) :
    ∀ t : List TrackedRow,
      ((bs.foldl (fun t b => upsertTracked t (rowOfBalloon b)) t).filter
        (fun r => decide (r.timestamp = τ))) =
      t.filter (fun r => decide (r.timestamp = τ)) := by
  induction bs with
  | nil => intro t; rfl
  | cons b tl ih =>
      intro t
      rw [List.foldl_cons,
        ih (fun b' hb' => hbs b' (List.mem_cons_of_mem _ hb')),
        filter_upsertTracked_ne _ _ _ (hbs b (List.mem_cons_self _ _))]

/-- Saving rows that are all already present verbatim (under duplicate-free
primary keys) leaves the store unchanged. -/
theorem saveTrackedBalloons_eq (st : Store) (bs : List BalloonDataPoint)
    (hnd : (st.tracked.map fun r => (r.id, r.timestamp)).Nodup)
    (hmem : ∀ b ∈ bs, rowOfBalloon b ∈ st.tracked) :
    saveTrackedBalloons st bs = st := by
  have key : ∀ (bs' : List BalloonDataPoint),
      (∀ b ∈ bs', rowOfBalloon b ∈ st.tracked) →
      bs'.foldl (fun t b => upsertTracked t (rowOfBalloon b)) st.tracked =
        st.tracked := by
    intro bs'
    induction bs' with
    | nil => intro _; rfl
    | cons b tl ih =>
        intro hm
        rw [List.foldl_cons,
          upsertTracked_eq_of_mem _ _ hnd (hm b (List.mem_cons_self _ _)),
          ih (fun b' hb' => hm b' (List.mem_cons_of_mem _ hb'))]
  unfold saveTrackedBalloons
  rw [key bs hmem]

/-- Saving an already-present snapshot (under duplicate-free timestamps)
leaves the store unchanged. -/
theorem saveBalloonSnapshot_eq (st : Store) (ts : ℤ)
    (rawData : List RawObservation)
    (hnd : (st.snapshots.map (·.timestamp)).Nodup)
    (hmem : (⟨ts, rawData⟩ : Snapshot) ∈ st.snapshots) :
    saveBalloonSnapshot st ts rawData = st := by
  unfold saveBalloonSnapshot
  rw [upsertSnapshot_eq_of_mem _ _ hnd hmem]

/-- Duplicate-free primary keys survive the whole tracked-save. -/
theorem foldl_upsert_nodup (bs : List BalloonDataPoint) :
    ∀ t : List TrackedRow, ((t.map fun r => (r.id, r.timestamp)).Nodup) →
      (((bs.foldl (fun t b => upsertTracked t (rowOfBalloon b)) t).map
        fun r => (r.id, r.timestamp)).Nodup) := by
  induction bs with
  | nil => intro t h; exact h
  | cons b tl ih =>
      intro t h
      rw [List.foldl_cons]
      exact ih _ (upsertTracked_nodup _ _ h)

/-- A row whose key is written by none of the saved balloons survives the
whole tracked-save. -/
theorem mem_foldl_upsert_of_ne (bs : List BalloonDataPoint) :
    ∀ (t : List TrackedRow) (r : TrackedRow), r ∈ t →
      (∀ b ∈ bs, (r.id, r.timestamp) ≠ (b.id, b.timestamp)) →
      r ∈ bs.foldl (fun t b => upsertTracked t (rowOfBalloon b)) t := by
  induction bs with
  | nil => intro t r hr _; exact hr
  | cons b tl ih =>
      intro t r hr hne
      rw [List.foldl_cons]
      exact ih _ r
        (mem_upsertTracked_of_ne _ _ _ hr (hne b (List.mem_cons_self _ _)))
        (fun b' hb' => hne b' (List.mem_cons_of_mem _ hb'))

/-- After saving a batch with duplicate-free keys, every saved row is
present. -/
theorem mem_foldl_upsert_self (bs : List BalloonDataPoint)
    (hnd : (bs.map fun b => (b.id, b.timestamp)).Nodup) :
    ∀ (t : List TrackedRow), ∀ b ∈ bs,
      rowOfBalloon b ∈ bs.foldl (fun t b => upsertTracked t (rowOfBalloon b)) t := by
  induction bs with
  | nil => intro t b hb; cases hb
  | cons b0 tl ih =>
      rw [List.map_cons, List.nodup_cons] at hnd
      intro t b hb
      rw [List.foldl_cons]
      rcases List.mem_cons.mp hb with rfl | hb'
      · refine mem_foldl_upsert_of_ne tl _ _ (self_mem_upsertTracked _ _) ?_
        intro b' hb' heq
        exact hnd.1 (heq ▸ List.mem_map_of_mem _ hb')
      · exact ih hnd.2 _ b hb'

/-! ## Tracker output provenance (shared by C2 and C9) -/

/-- Generic preservation of a per-index property along the conflicting-index
list of a `Phase1State` fold. -/
theorem foldl_conflicting_pres {α : Type} (P : ℕ → Prop)
    (F : Phase1State → α → Phase1State) :
    ∀ (l : List α),
      (∀ (s : Phase1State), ∀ a ∈ l, ∀ i ∈ (F s a).conflictingCurrIndices,
        i ∈ s.conflictingCurrIndices ∨ P i) →
      ∀ (s : Phase1State), ∀ i ∈ (l.foldl F s).conflictingCurrIndices,
        i ∈ s.conflictingCurrIndices ∨ P i := by
  intro l
  induction l with
  | nil => intro _ s i hi; exact Or.inl hi
  | cons a tl ih =>
      intro hF s i hi
      rw [List.foldl_cons] at hi
      rcases ih (fun s' a' ha' => hF s' a' (List.mem_cons_of_mem _ ha')) _ i hi with
        h | h
      · exact hF s a (List.mem_cons_self _ _) i h
      · exact Or.inr h

/-- One greedy iteration only defers its own index. -/
theorem greedyStep_conflicting_sub (cpc : ℕ → List CandidateMatch)
    (demand : String → ℕ) (contested : ℕ → Prop)
    (currentData : List BalloonDataPoint) (s : Phase1State) (i i' : ℕ)
    (hi : i' ∈ (greedyStep cpc demand contested currentData s i).conflictingCurrIndices) :
    i' ∈ s.conflictingCurrIndices ∨ i' = i := by
  unfold greedyStep at hi
  rcases hc : cpc i with _ | ⟨best, rest⟩ <;> rw [hc] at hi
  · exact Or.inl hi
  · dsimp only at hi
    by_cases h1 : 1 < demand best.prev.id
    · rw [if_pos h1] at hi
      simp only [deferConflict, List.mem_append, List.mem_singleton] at hi
      exact hi
    rw [if_neg h1] at hi
    by_cases h2 : contested i
    · rw [if_pos h2] at hi
      simp only [deferConflict, List.mem_append, List.mem_singleton] at hi
      exact hi
    rw [if_neg h2] at hi
    rcases rest with _ | ⟨sb, tl⟩ <;>
      · dsimp only at hi
        split_ifs at hi with h3
        · exact Or.inl hi
        · simp only [deferConflict, List.mem_append, List.mem_singleton] at hi
          exact hi

/-- Every index the greedy phase defers is an index of the current data. -/
theorem greedyPhase_conflicting (cpc : ℕ → List CandidateMatch)
    (demand : String → ℕ) (contested : ℕ → Prop)
    (currentData : List BalloonDataPoint) :
    ∀ i ∈ (greedyPhase cpc demand contested currentData).conflictingCurrIndices,
      i < currentData.length := by
  intro i hi
  have := foldl_conflicting_pres (fun i => i < currentData.length)
    (greedyStep cpc demand contested currentData)
    (List.range currentData.length)
    (by
      intro s a ha i' hi'
      rcases greedyStep_conflicting_sub cpc demand contested currentData s a i' hi' with
        h | rfl
      · exact Or.inl h
      · exact Or.inr (List.mem_range.mp ha))
    {} i hi
  rcases this with h | h
  · simp at h
  · exact h

/-- The minting fold of `assignNewIds`: every output row is an input row or
a minted copy of a current balloon at an index of the folded list. -/
theorem assignNewIds_mem_strong_go (currentData : List BalloonDataPoint)
    (matchedCurrIndices : List ℕ) :
    ∀ (l : List ℕ) (tracked : List BalloonDataPoint) (nextId : ℕ)
      (r : BalloonDataPoint),
      r ∈ (l.foldl (fun acc i =>
          if i ∈ matchedCurrIndices then acc
          else
            (acc.1 ++
              [{ currentData.getD i default with
                 id := mkBalloonId acc.2, status := .new, confidence := 0.5 }],
              acc.2 + 1)) (tracked, nextId)).1 →
      r ∈ tracked ∨ ∃ i ∈ l, ∃ n' : ℕ,
        r = { currentData.getD i default with
              id := mkBalloonId n', status := .new, confidence := 0.5 } := by
  intro l
  induction l with
  | nil => intro tracked nextId r hr; exact Or.inl hr
  | cons i tl ih =>
      intro tracked nextId r hr
      rw [List.foldl_cons] at hr
      by_cases hi : i ∈ matchedCurrIndices
      · rw [if_pos hi] at hr
        rcases ih tracked nextId r hr with h | ⟨i', hi', n', h⟩
        · exact Or.inl h
        · exact Or.inr ⟨i', List.mem_cons_of_mem _ hi', n', h⟩
      · rw [if_neg hi] at hr
        rcases ih _ _ r hr with hmem | ⟨i', hi', n', h⟩
        · rcases List.mem_append.mp hmem with hmem | hmem
          · exact Or.inl hmem
          · rw [List.mem_singleton] at hmem
            exact Or.inr ⟨i, List.mem_cons_self _ _, nextId, hmem⟩
        · exact Or.inr ⟨i', List.mem_cons_of_mem _ hi', n', h⟩

/-- Every row of `assignNewIds` is an input row or a minted copy of a
current balloon. -/
theorem assignNewIds_mem_strong (currentData : List BalloonDataPoint)
    (matchedCurrIndices : List ℕ) (tracked : List BalloonDataPoint)
    (nextId : ℕ) (r : BalloonDataPoint)
    (hr : r ∈ (assignNewIds currentData matchedCurrIndices tracked nextId).1) :
    r ∈ tracked ∨ ∃ i < currentData.length, ∃ n' : ℕ,
      r = { currentData.getD i default with
            id := mkBalloonId n', status := .new, confidence := 0.5 } := by
  unfold assignNewIds at hr
  rcases assignNewIds_mem_strong_go currentData matchedCurrIndices
    (List.range currentData.length) tracked nextId r hr with h | ⟨i, hi, n', h⟩
  · exact Or.inl h
  · exact Or.inr ⟨i, List.mem_range.mp hi, n', h⟩

/-- Every row `trackBalloons` emits carries the common timestamp of the
current observations. -/
theorem trackBalloons_timestamps (assign : List (List ℝ) → List (ℕ × ℕ))
    (currentData previousData : List BalloonDataPoint)
    (hist : String → List BalloonDataPoint) (nextId : ℕ) (τ : ℤ)
    (hts : ∀ c ∈ currentData, c.timestamp = τ) :
    ∀ r ∈ (trackBalloons assign currentData previousData hist nextId).1,
      r.timestamp = τ := by
  have hgetD : ∀ i, i < currentData.length →
      (currentData.getD i default).timestamp = τ := by
    intro i hi
    rw [List.getD_eq_getElem _ _ hi]
    exact hts _ (List.getElem_mem _)
  intro r hr
  unfold trackBalloons at hr
  split_ifs at hr with hprev
  · obtain ⟨ib, hib, rfl⟩ := List.mem_map.mp hr
    obtain ⟨hlt, hgd⟩ := enum_mem_spec currentData ib.1 ib.2 hib
    show ib.2.timestamp = τ
    rw [← hgd]
    exact hgetD _ hlt
  · try dsimp only at hr
    rcases assignNewIds_mem_strong _ _ _ _ _ hr with hmem | ⟨i, hi, n', rfl⟩
    · rcases hungarianPhase_tracked_mem _ _ _ _ _ _ hmem with
        hg | ⟨currIdx, hci, c, hcc, rfl⟩
      · obtain ⟨i, hi, cand, hcand, rfl⟩ := greedyPhase_tracked _ _ _ _ r hg
        exact hgetD _ hi
      · exact hgetD _ (greedyPhase_conflicting _ _ _ _ _ hci)
    · exact hgetD _ hi

/-- One greedy iteration keeps `|tracked| = |matchedCurrIndices|`. -/
theorem greedyStep_len (cpc : ℕ → List CandidateMatch)
    (demand : String → ℕ) (contested : ℕ → Prop)
    (currentData : List BalloonDataPoint) (s : Phase1State) (i : ℕ)
    (h : s.tracked.length = s.matchedCurrIndices.length) :
    (greedyStep cpc demand contested currentData s i).tracked.length =
    (greedyStep cpc demand contested currentData s i).matchedCurrIndices.length := by
  unfold greedyStep
  rcases hc : cpc i with _ | ⟨best, rest⟩
  · dsimp only
    exact h
  · dsimp only
    by_cases h1 : 1 < demand best.prev.id
    · rw [if_pos h1]; exact h
    rw [if_neg h1]
    by_cases h2 : contested i
    · rw [if_pos h2]; exact h
    rw [if_neg h2]
    rcases rest with _ | ⟨sb, tl⟩ <;>
      · dsimp only
        split_ifs with h3
        · simp [applyAddMatch, h]
        · exact h

/-- `|tracked| = |matchedCurrIndices|` after the greedy phase. -/
theorem greedyPhase_len (cpc : ℕ → List CandidateMatch)
    (demand : String → ℕ) (contested : ℕ → Prop)
    (currentData : List BalloonDataPoint) :
    (greedyPhase cpc demand contested currentData).tracked.length =
    (greedyPhase cpc demand contested currentData).matchedCurrIndices.length := by
  unfold greedyPhase
  exact foldl_inv (fun s => s.tracked.length = s.matchedCurrIndices.length)
    _ _ {} rfl (fun s' i _ h => greedyStep_len cpc demand contested currentData s' i h)

/-- `|tracked| = |matchedCurrIndices|` survives the Hungarian phase. -/
theorem hungarianPhase_len (assign : List (List ℝ) → List (ℕ × ℕ))
    (cpc : ℕ → List CandidateMatch)
    (currentData previousData : List BalloonDataPoint) (s : Phase1State)
    (h : s.tracked.length = s.matchedCurrIndices.length) :
    (hungarianPhase assign cpc currentData previousData s).tracked.length =
    (hungarianPhase assign cpc currentData previousData s).matchedCurrIndices.length := by
  unfold hungarianPhase
  split
  · exact h
  · dsimp only
    split_ifs with h1
    · exact h
    · refine foldl_inv (fun s2 => s2.tracked.length = s2.matchedCurrIndices.length)
        _ _ s h ?_
      intro s2 ij hij h2
      dsimp only
      split_ifs with hA hB
      · exact h2
      · exact h2
      · simp [applyAddMatch, h2]

/-- Length of the minting fold: the inputs plus one row per unmatched
index. -/
theorem assignNewIds_len_go (currentData : List BalloonDataPoint)
    (matchedCurrIndices : List ℕ) :
    ∀ (l : List ℕ) (tracked : List BalloonDataPoint) (nextId : ℕ),
      (l.foldl (fun acc i =>
          if i ∈ matchedCurrIndices then acc
          else
            (acc.1 ++
              [{ currentData.getD i default with
                 id := mkBalloonId acc.2, status := .new, confidence := 0.5 }],
              acc.2 + 1)) (tracked, nextId)).1.length =
      tracked.length +
        (l.filter (fun i => decide (i ∉ matchedCurrIndices))).length := by
  intro l
  induction l with
  | nil => intro tracked nextId; simp
  | cons i tl ih =>
      intro tracked nextId
      rw [List.foldl_cons]
      by_cases hi : i ∈ matchedCurrIndices
      · dsimp only
        rw [if_pos hi, ih, List.filter_cons]
        simp [hi]
      · dsimp only
        rw [if_neg hi, ih, List.filter_cons]
        simp [hi]
        omega

/-- Length of `assignNewIds`. -/
theorem assignNewIds_len (currentData : List BalloonDataPoint)
    (matchedCurrIndices : List ℕ) (tracked : List BalloonDataPoint)
    (nextId : ℕ) :
    (assignNewIds currentData matchedCurrIndices tracked nextId).1.length =
    tracked.length + ((List.range currentData.length).filter
      (fun i => decide (i ∉ matchedCurrIndices))).length := by
  unfold assignNewIds
  exact assignNewIds_len_go currentData matchedCurrIndices
    (List.range currentData.length) tracked nextId

/-- `trackBalloons` never returns an empty row list on nonempty input. -/
theorem trackBalloons_ne_nil (assign : List (List ℝ) → List (ℕ × ℕ))
    (currentData previousData : List BalloonDataPoint)
    (hist : String → List BalloonDataPoint) (nextId : ℕ)
    (hne : currentData ≠ []) :
    (trackBalloons assign currentData previousData hist nextId).1 ≠ [] := by
  have hlen : 0 < currentData.length := List.length_pos.mpr hne
  unfold trackBalloons
  split_ifs with hprev
  · intro h
    apply hne
    have := congrArg List.length h
    simp only [List.length_map, List.enum_length, List.length_nil] at this
    exact List.length_eq_zero.mp this
  · dsimp only
    intro hnil
    generalize hS : hungarianPhase assign
      (fun currIdx => candidatesFor hist previousData (currentData.getD currIdx default))
      currentData previousData
      (greedyPhase
        (fun currIdx => candidatesFor hist previousData (currentData.getD currIdx default))
        (prevIdDemand (fun currIdx => candidatesFor hist previousData
          (currentData.getD currIdx default)) currentData.length)
        (fun i => isContested (candidatesFor hist previousData (currentData.getD i default)))
        currentData) = S at hnil
    have hSlen : S.tracked.length = S.matchedCurrIndices.length := by
      rw [← hS]
      exact hungarianPhase_len _ _ _ _ _ (greedyPhase_len _ _ _ _)
    have hlen2 := congrArg List.length hnil
    rw [assignNewIds_len] at hlen2
    simp only [List.length_nil] at hlen2
    have hm : S.matchedCurrIndices = [] := by
      rw [← List.length_eq_zero]
      omega
    have hf : ((List.range currentData.length).filter
        (fun i => decide (i ∉ S.matchedCurrIndices))).length = 0 := by omega
    rw [List.length_eq_zero, List.filter_eq_nil_iff] at hf
    have h0 := hf 0 (List.mem_range.mpr hlen)
    rw [hm] at h0
    simp at h0

/-- A max-fold over integers stays in the list (or at the seed), dominates
the seed, and dominates every element. -/
theorem foldl_max_spec : ∀ (t : List ℤ) (h : ℤ),
    (t.foldl max h ∈ h :: t) ∧ (h ≤ t.foldl max h) ∧
      (∀ b ∈ t, b ≤ t.foldl max h) := by
  intro t
  induction t with
  | nil => intro h; exact ⟨List.mem_singleton.mpr rfl, le_refl _, by simp⟩
  | cons x tl ih =>
      intro h
      rw [List.foldl_cons]
      obtain ⟨hmem, hle, hall⟩ := ih (max h x)
      refine ⟨?_, le_trans (le_max_left h x) hle, ?_⟩
      · rcases List.mem_cons.mp hmem with heq | hm
        · rw [heq]
          rcases max_choice h x with hmx | hmx <;> rw [hmx]
          · exact List.mem_cons_self _ _
          · exact List.mem_cons_of_mem _ (List.mem_cons_self _ _)
        · exact List.mem_cons_of_mem _ (List.mem_cons_of_mem _ hm)
      · intro b hb
        rcases List.mem_cons.mp hb with rfl | hb'
        · exact le_trans (le_max_right h b) hle
        · exact hall b hb'

/-- `max?` returns the element that dominates the whole list. -/
theorem max?_eq_some_of (l : List ℤ) (a : ℤ) (ha : a ∈ l)
    (hall : ∀ b ∈ l, b ≤ a) : l.max? = some a := by
  cases l with
  | nil => cases ha
  | cons h t =>
      show some (t.foldl max h) = some a
      obtain ⟨hmem, hle, hdom⟩ := foldl_max_spec t h
      congr 1
      refine le_antisymm (hall _ hmem) ?_
      rcases List.mem_cons.mp ha with rfl | ha'
      · exact hle
      · exact hdom a ha'

/-- Cleanup only retains rows at or after the cutoff. -/
theorem cleanupStaleData_tracked_mem (st : Store) (w : ℤ) (r : TrackedRow)
    (hr : r ∈ (cleanupStaleData st w).1.tracked) :
    r ∈ st.tracked ∧ w - 24 * 3600000 ≤ r.timestamp := by
  unfold cleanupStaleData at hr
  dsimp only at hr
  obtain ⟨hm, hp⟩ := List.mem_filter.mp hr
  exact ⟨hm, of_decide_eq_true hp⟩

/-- Cleanup only retains snapshots at or after the cutoff. -/
theorem cleanupStaleData_snapshot_mem (st : Store) (w : ℤ) (s : Snapshot)
    (hs : s ∈ (cleanupStaleData st w).1.snapshots) :
    s ∈ st.snapshots ∧ w - 24 * 3600000 ≤ s.timestamp := by
  unfold cleanupStaleData at hs
  dsimp only at hs
  obtain ⟨hm, hp⟩ := List.mem_filter.mp hs
  exact ⟨hm, of_decide_eq_true hp⟩

/-- Cleanup is the identity when nothing is stale. -/
theorem cleanupStaleData_eq (st : Store) (w : ℤ)
    (ht : ∀ r ∈ st.tracked, w - 24 * 3600000 ≤ r.timestamp)
    (hs : ∀ s ∈ st.snapshots, w - 24 * 3600000 ≤ s.timestamp) :
    (cleanupStaleData st w).1 = st := by
  unfold cleanupStaleData
  dsimp only
  have h1 : st.tracked.filter
      (fun r => decide (w - 24 * 3600000 ≤ r.timestamp)) = st.tracked :=
    List.filter_eq_self.mpr (fun a ha => decide_eq_true (ht a ha))
  have h2 : st.snapshots.filter
      (fun s => decide (w - 24 * 3600000 ≤ s.timestamp)) = st.snapshots :=
    List.filter_eq_self.mpr (fun a ha => decide_eq_true (hs a ha))
  rw [h1, h2]

/-- An hour-aligned instant at or after the wall-clock 24-hour cutoff is at
or after `hour − 23 h` whenever the wall clock is strictly past the hour. -/
theorem aligned_cutoff (t H w : ℤ) (ht : t = floorHour t)
    (hH : H = floorHour H) (h1 : H < w) (h2 : w - 24 * 3600000 ≤ t) :
    H - 23 * 3600000 ≤ t := by
  unfold floorHour at ht hH
  have hk : t = 3600000 * Int.fdiv t 3600000 := ht
  have hK : H = 3600000 * Int.fdiv H 3600000 := hH
  generalize Int.fdiv t 3600000 = k at hk
  generalize Int.fdiv H 3600000 = K at hK
  omega

/-- A nonempty tracked-save leaves at least one of its own rows present. -/
theorem foldl_upsert_last_mem (bs : List BalloonDataPoint) (hne : bs ≠ []) :
    ∀ t : List TrackedRow, ∃ b ∈ bs,
      rowOfBalloon b ∈ bs.foldl (fun t b => upsertTracked t (rowOfBalloon b)) t := by
  induction bs with
  | nil => exact absurd rfl hne
  | cons b tl ih =>
      intro t
      rw [List.foldl_cons]
      rcases htl : tl with _ | ⟨hd, tl'⟩
      · refine ⟨b, List.mem_cons_self _ _, ?_⟩
        rw [List.foldl_nil]
        exact self_mem_upsertTracked _ _
      · obtain ⟨b', hb', hmem⟩ := ih (by rw [htl]; exact List.cons_ne_nil _ _)
          (upsertTracked t (rowOfBalloon b))
        exact ⟨b', List.mem_cons_of_mem _ (htl ▸ hb'), htl ▸ hmem⟩

/-- C9: after a successful tick, every retained snapshot and tracked row is
at or after `now_hour − 23 h` (everything strictly older than the cleanup
cutoff is deleted), and the maximum tracked timestamp equals the latest
snapshot timestamp, both being the tick's hour.  The side conditions say
the tick happens strictly inside the hour it stamps and the pre-existing
store holds hour-aligned, non-future rows. -/
theorem rolling_window (assign : List (List ℝ) → List (ℕ × ℕ))
    (nowWallMs nowHourMs : ℤ) (newHourData : List RawObservation)
    (st st' : IngestState)
    (h : runHourlyUpdate assign nowWallMs nowHourMs newHourData st = some st')
    (hha : nowHourMs = floorHour nowHourMs)
    (hw1 : nowHourMs < nowWallMs) (hw2 : nowWallMs < nowHourMs + 3600000)
    (halT : ∀ r ∈ st.store.tracked, r.timestamp = floorHour r.timestamp)
    (halS : ∀ s ∈ st.store.snapshots, s.timestamp = floorHour s.timestamp)
    (hpastT : ∀ r ∈ st.store.tracked, r.timestamp ≤ nowHourMs)
    (hpastS : ∀ s ∈ st.store.snapshots, s.timestamp ≤ nowHourMs) :
    (∀ row ∈ st'.store.tracked, nowHourMs - 23 * 3600000 ≤ row.timestamp) ∧
    (∀ s ∈ st'.store.snapshots, nowHourMs - 23 * 3600000 ≤ s.timestamp) ∧
    (st'.store.tracked.map (·.timestamp)).max? = some nowHourMs ∧
    getLatestSnapshotTimestamp st'.store = some nowHourMs := by
  unfold runHourlyUpdate at h
  by_cases hemp : newHourData.isEmpty = true
  · rw [if_pos hemp] at h
    exact absurd h (by simp)
  · rw [if_neg hemp] at h
    have hne : newHourData ≠ [] := by
      intro hnil
      exact hemp (by rw [hnil]; rfl)
    dsimp only at h
    obtain rfl := Option.some.inj h
    dsimp only
    set nb : List BalloonDataPoint := newHourData.enum.map (fun ir =>
      { id := tempId 0 ir.1, latitude := ir.2.lat, longitude := ir.2.lon,
        altitude_km := ir.2.alt, timestamp := nowHourMs, hour_offset := 0,
        confidence := 1, status := .active }) with hnb
    set R := trackBalloons assign nb
      (getTrackedBalloonsAtTimestamp
        (saveBalloonSnapshot st.store nowHourMs newHourData)
        (floorHour (nowHourMs - 60 * 60 * 1000)))
      (fun _ => []) st.nextId with hR
    have hnbne : nb ≠ [] := by
      rw [hnb]
      intro hnil
      have hlen : newHourData.length = 0 := by
        simpa using congrArg List.length hnil
      exact hne (List.length_eq_zero.mp hlen)
    have hts : ∀ b ∈ R.1, b.timestamp = nowHourMs := by
      rw [hR]
      refine trackBalloons_timestamps _ _ _ _ _ _ ?_
      intro c hc
      rw [hnb] at hc
      obtain ⟨ir, _, rfl⟩ := List.mem_map.mp hc
      rfl
    have hRne : R.1 ≠ [] := by
      rw [hR]
      exact trackBalloons_ne_nil _ _ _ _ _ hnbne
    have hmem3 : ∀ row ∈ (saveTrackedBalloons (saveTrackedBalloons
        (saveBalloonSnapshot st.store nowHourMs newHourData) R.1) R.1).tracked,
        row ∈ st.store.tracked ∨ ∃ b ∈ R.1, row = rowOfBalloon b := by
      intro row hrow
      rcases mem_saveTracked_foldl R.1 _ row hrow with h1 | h1
      · rcases mem_saveTracked_foldl R.1 _ row h1 with h2 | h2
        · exact Or.inl h2
        · exact Or.inr h2
      · exact Or.inr h1
    refine ⟨?_, ?_, ?_, ?_⟩
    · intro row hrow
      obtain ⟨hm, hcut⟩ := cleanupStaleData_tracked_mem _ _ _ hrow
      rcases hmem3 row hm with horig | ⟨b, hb, rfl⟩
      · exact aligned_cutoff _ _ _ (halT row horig) hha hw1 hcut
      · have hbts : (rowOfBalloon b).timestamp = nowHourMs := hts b hb
        rw [hbts]
        omega
    · intro s hs
      obtain ⟨hm, hcut⟩ := cleanupStaleData_snapshot_mem _ _ _ hs
      rcases mem_upsertSnapshot st.store.snapshots ⟨nowHourMs, newHourData⟩ s hm with
        horig | rfl
      · exact aligned_cutoff _ _ _ (halS s horig) hha hw1 hcut
      · show nowHourMs - 23 * 3600000 ≤ nowHourMs
        omega
    · obtain ⟨b0, hb0, hb0mem⟩ := foldl_upsert_last_mem R.1 hRne
        (saveTrackedBalloons (saveBalloonSnapshot st.store nowHourMs newHourData) R.1).tracked
      have hb0cl : rowOfBalloon b0 ∈ (cleanupStaleData (saveTrackedBalloons
          (saveTrackedBalloons (saveBalloonSnapshot st.store nowHourMs newHourData)
            R.1) R.1) nowWallMs).1.tracked := by
        unfold cleanupStaleData
        dsimp only
        refine List.mem_filter.mpr ⟨hb0mem, decide_eq_true ?_⟩
        have hbts : (rowOfBalloon b0).timestamp = nowHourMs := hts b0 hb0
        rw [hbts]
        omega
      refine max?_eq_some_of _ _ ?_ ?_
      · exact List.mem_map.mpr ⟨rowOfBalloon b0, hb0cl, hts b0 hb0⟩
      · intro ts' hts'
        obtain ⟨row, hrow, rfl⟩ := List.mem_map.mp hts'
        obtain ⟨hm, _⟩ := cleanupStaleData_tracked_mem _ _ _ hrow
        rcases hmem3 row hm with horig | ⟨b, hb, rfl⟩
        · exact hpastT row horig
        · rw [show (rowOfBalloon b).timestamp = b.timestamp from rfl, hts b hb]
    · unfold getLatestSnapshotTimestamp
      refine max?_eq_some_of _ _ ?_ ?_
      · refine List.mem_map.mpr ⟨⟨nowHourMs, newHourData⟩, ?_, rfl⟩
        unfold cleanupStaleData
        dsimp only
        refine List.mem_filter.mpr ⟨?_, decide_eq_true (by
          show nowWallMs - 24 * 3600000 ≤ nowHourMs
          omega)⟩
        exact self_mem_upsertSnapshot st.store.snapshots _
      · intro ts' hts'
        obtain ⟨s, hs, rfl⟩ := List.mem_map.mp hts'
        obtain ⟨hm, _⟩ := cleanupStaleData_snapshot_mem _ _ _ hs
        rcases mem_upsertSnapshot st.store.snapshots ⟨nowHourMs, newHourData⟩ s hm with
          horig | rfl
        · exact hpastS s horig
        · exact le_refl _

/-- C9, witness: the rolling-window theorem applied to a first tick on the
empty store at hour 50, one minute past the hour boundary. -/
theorem rolling_window_witness :
    runHourlyUpdate emptyAssign (3600000 * 50 + 60000) (3600000 * 50)
      [⟨0, 0, 10⟩] {} =
      some ((runHourlyUpdate emptyAssign (3600000 * 50 + 60000) (3600000 * 50)
        [⟨0, 0, 10⟩] {}).getD {}) ∧
    ((∀ row ∈ ((runHourlyUpdate emptyAssign (3600000 * 50 + 60000)
          (3600000 * 50) [⟨0, 0, 10⟩] {}).getD {}).store.tracked,
        (3600000 * 50 : ℤ) - 23 * 3600000 ≤ row.timestamp) ∧
      (∀ s ∈ ((runHourlyUpdate emptyAssign (3600000 * 50 + 60000)
          (3600000 * 50) [⟨0, 0, 10⟩] {}).getD {}).store.snapshots,
        (3600000 * 50 : ℤ) - 23 * 3600000 ≤ s.timestamp) ∧
      (((runHourlyUpdate emptyAssign (3600000 * 50 + 60000) (3600000 * 50)
          [⟨0, 0, 10⟩] {}).getD {}).store.tracked.map (·.timestamp)).max? =
        some (3600000 * 50 : ℤ) ∧
      getLatestSnapshotTimestamp ((runHourlyUpdate emptyAssign
          (3600000 * 50 + 60000) (3600000 * 50) [⟨0, 0, 10⟩] {}).getD
          {}).store = some (3600000 * 50 : ℤ)) :=
  ⟨rfl,
    rolling_window emptyAssign (3600000 * 50 + 60000) (3600000 * 50)
      [⟨0, 0, 10⟩] {} _ rfl (by decide) (by decide) (by decide)
      (fun r hr => absurd hr (List.not_mem_nil r))
      (fun s hs => absurd hs (List.not_mem_nil s))
      (fun r hr => absurd hr (List.not_mem_nil r))
      (fun s hs => absurd hs (List.not_mem_nil s))⟩

/-! ## Idempotence of the ingest tick (C2) -/

/-- Mapping then filtering keeps the mapped list duplicate-free. -/
theorem nodup_map_filter {α β : Type} (f : α → β) (p : α → Bool) (l : List α)
    (h : (l.map f).Nodup) : ((l.filter p).map f).Nodup :=
  List.Sublist.nodup (List.Sublist.map f (List.filter_sublist l)) h

/-- One hour before an hour-aligned instant is itself hour-aligned. -/
theorem floorHour_aligned_sub (H : ℤ) (h : H = floorHour H) :
    floorHour (H - 60 * 60 * 1000) = H - 60 * 60 * 1000 := by
  unfold floorHour at h ⊢
  have hk : H = 3600000 * Int.fdiv H 3600000 := h
  generalize Int.fdiv H 3600000 = K at hk
  subst hk
  have he : (3600000 : ℤ) * K - 60 * 60 * 1000 = 3600000 * (K - 1) := by ring
  rw [he, Int.mul_fdiv_cancel_left _ (by norm_num)]

/-- C2 (amended): the tick is *not* idempotent in general (see the
counterexample: a repeated first hour re-mints every balloon under fresh
ids and duplicates the tracked rows).  What holds: when the repeated tick
re-matches every observation — its tracking pass mints nothing — the second
run within the same wall-clock hour is the identity on the ingest state:
no snapshot row, no tracked row, no counter movement, and no new ids.  The
side conditions say both ticks fall strictly inside the stamped hour and
the pre-existing store holds hour-aligned rows under duplicate-free
primary keys. -/
theorem ingest_idempotent (assign : List (List ℝ) → List (ℕ × ℕ))
    (wall1 wall2 hour : ℤ) (data : List RawObservation)
    (st st1 : IngestState)
    (h1 : runHourlyUpdate assign wall1 hour data st = some st1)
    (hha : hour = floorHour hour)
    (hw1 : hour < wall1) (hw1' : wall1 < hour + 3600000)
    (hw2 : hour < wall2) (hw2' : wall2 < hour + 3600000)
    (halT : ∀ r ∈ st.store.tracked, r.timestamp = floorHour r.timestamp)
    (halS : ∀ s ∈ st.store.snapshots, s.timestamp = floorHour s.timestamp)
    (hsnd : (st.store.snapshots.map (·.timestamp)).Nodup)
    (htnd : (st.store.tracked.map fun r => (r.id, r.timestamp)).Nodup)
    (hbnd : (st1.balloonHistory.map fun b => (b.id, b.timestamp)).Nodup)
    (hnomint : ∀ b ∈ st1.balloonHistory, b.status ≠ .new) :
    runHourlyUpdate assign wall2 hour data st1 = some st1 := by
  unfold runHourlyUpdate at h1 ⊢
  by_cases hemp : data.isEmpty = true
  · rw [if_pos hemp] at h1
    exact absurd h1 (by simp)
  rw [if_neg hemp] at h1 ⊢
  dsimp only at h1
  obtain rfl := Option.some.inj h1
  dsimp only at hbnd hnomint ⊢
  set nb : List BalloonDataPoint := data.enum.map (fun ir =>
    { id := tempId 0 ir.1, latitude := ir.2.lat, longitude := ir.2.lon,
      altitude_km := ir.2.alt, timestamp := hour, hour_offset := 0,
      confidence := 1, status := .active }) with hnb
  set R := trackBalloons assign nb
    (getTrackedBalloonsAtTimestamp
      (saveBalloonSnapshot st.store hour data)
      (floorHour (hour - 60 * 60 * 1000)))
    (fun _ => []) st.nextId with hR
  -- run-1 facts
  have hts : ∀ b ∈ R.1, b.timestamp = hour := by
    rw [hR]
    refine trackBalloons_timestamps _ _ _ _ _ _ ?_
    intro c hc
    rw [hnb] at hc
    obtain ⟨ir, _, rfl⟩ := List.mem_map.mp hc
    rfl
  have hm0 : mintedOf R.1 = [] := by
    simp only [mintedOf, List.map_eq_nil_iff, List.filter_eq_nil_iff]
    intro b hb
    simpa using hnomint b hb
  have hR2 : R.2 = st.nextId := by
    obtain ⟨m, hm2, hm1⟩ := trackBalloons_minted assign nb
      (getTrackedBalloonsAtTimestamp
        (saveBalloonSnapshot st.store hour data)
        (floorHour (hour - 60 * 60 * 1000)))
      (fun _ => []) st.nextId
    rw [← hR] at hm2 hm1
    rw [hm1] at hm0
    rw [List.map_eq_nil_iff, List.range'_eq_nil] at hm0
    omega
  have hprevne : hour - 60 * 60 * 1000 ≠ hour := by omega
  have hprevfl := floorHour_aligned_sub hour hha
  -- the store after run 1
  set S1 := (cleanupStaleData (saveTrackedBalloons (saveTrackedBalloons
    (saveBalloonSnapshot st.store hour data) R.1) R.1) wall1).1 with hS1
  have hmem3 : ∀ row ∈ (saveTrackedBalloons (saveTrackedBalloons
      (saveBalloonSnapshot st.store hour data) R.1) R.1).tracked,
      row ∈ st.store.tracked ∨ ∃ b ∈ R.1, row = rowOfBalloon b := by
    intro row hrow
    rcases mem_saveTracked_foldl R.1 _ row hrow with h' | h'
    · rcases mem_saveTracked_foldl R.1 _ row h' with h'' | h''
      · exact Or.inl h''
      · exact Or.inr h''
    · exact Or.inr h'
  have hT_bound : ∀ row ∈ S1.tracked, wall2 - 24 * 3600000 ≤ row.timestamp := by
    intro row hrow
    obtain ⟨hm, hcut⟩ := cleanupStaleData_tracked_mem _ _ _ hrow
    rcases hmem3 row hm with horig | ⟨b, hb, rfl⟩
    · have := aligned_cutoff _ _ _ (halT row horig) hha hw1 hcut
      omega
    · have hbts : (rowOfBalloon b).timestamp = hour := hts b hb
      rw [hbts]
      omega
  have hS_bound : ∀ s ∈ S1.snapshots, wall2 - 24 * 3600000 ≤ s.timestamp := by
    intro s hs
    obtain ⟨hm, hcut⟩ := cleanupStaleData_snapshot_mem _ _ _ hs
    rcases mem_upsertSnapshot st.store.snapshots ⟨hour, data⟩ s hm with horig | rfl
    · have := aligned_cutoff _ _ _ (halS s horig) hha hw1 hcut
      omega
    · show wall2 - 24 * 3600000 ≤ hour
      omega
  have hT_nodup : (S1.tracked.map fun r => (r.id, r.timestamp)).Nodup := by
    refine nodup_map_filter _ _ _ ?_
    exact foldl_upsert_nodup R.1 _ (foldl_upsert_nodup R.1 _ htnd)
  have hS_nodup : (S1.snapshots.map (·.timestamp)).Nodup := by
    refine nodup_map_filter _ _ _ ?_
    exact upsertSnapshot_nodup _ _ hsnd
  have hS_mem : (⟨hour, data⟩ : Snapshot) ∈ S1.snapshots := by
    rw [hS1]
    unfold cleanupStaleData
    dsimp only
    refine List.mem_filter.mpr ⟨?_, decide_eq_true (by
      show wall1 - 24 * 3600000 ≤ hour
      omega)⟩
    exact self_mem_upsertSnapshot st.store.snapshots _
  have hT_mem_rows : ∀ b ∈ R.1, rowOfBalloon b ∈ S1.tracked := by
    intro b hb
    rw [hS1]
    unfold cleanupStaleData
    dsimp only
    refine List.mem_filter.mpr ⟨?_, decide_eq_true (by
      have hbts : (rowOfBalloon b).timestamp = hour := hts b hb
      rw [hbts]
      omega)⟩
    exact mem_foldl_upsert_self R.1 hbnd _ b hb
  -- the snapshot re-save is a no-op
  have hsnap : saveBalloonSnapshot S1 hour data = S1 :=
    saveBalloonSnapshot_eq _ _ _ hS_nodup hS_mem
  -- the previous-hour query is unchanged
  have hPT : getTrackedBalloonsAtTimestamp S1 (floorHour (hour - 60 * 60 * 1000)) =
      getTrackedBalloonsAtTimestamp (saveBalloonSnapshot st.store hour data)
        (floorHour (hour - 60 * 60 * 1000)) := by
    unfold getTrackedBalloonsAtTimestamp
    congr 1
    rw [hS1]
    show ((cleanupStaleData (saveTrackedBalloons (saveTrackedBalloons
      (saveBalloonSnapshot st.store hour data) R.1) R.1) wall1).1.tracked).filter _ = _
    unfold cleanupStaleData
    dsimp only
    rw [List.filter_comm]
    have hframe : ((saveTrackedBalloons (saveTrackedBalloons
        (saveBalloonSnapshot st.store hour data) R.1) R.1).tracked).filter
          (fun r => decide (r.timestamp = floorHour (hour - 60 * 60 * 1000))) =
        (st.store.tracked).filter
          (fun r => decide (r.timestamp = floorHour (hour - 60 * 60 * 1000))) := by
      have hne60 : ∀ b ∈ R.1, b.timestamp ≠ floorHour (hour - 60 * 60 * 1000) := by
        intro b hb
        rw [hts b hb, hprevfl]
        omega
      show ((R.1.foldl (fun t b => upsertTracked t (rowOfBalloon b))
        ((saveTrackedBalloons (saveBalloonSnapshot st.store hour data) R.1).tracked))).filter _ = _
      rw [filter_foldl_upsert_ne _ _ hne60]
      show ((R.1.foldl (fun t b => upsertTracked t (rowOfBalloon b))
        ((saveBalloonSnapshot st.store hour data).tracked))).filter _ = _
      rw [filter_foldl_upsert_ne _ _ hne60]
      rfl
    rw [hframe]
    refine List.filter_eq_self.mpr ?_
    intro r hr
    obtain ⟨_, hrts⟩ := List.mem_filter.mp hr
    have hrts' : r.timestamp = floorHour (hour - 60 * 60 * 1000) :=
      of_decide_eq_true hrts
    refine decide_eq_true ?_
    rw [hrts', hprevfl]
    omega
  -- run 2 is the identity
  rw [hsnap, hPT, hR2, ← hR,
    saveTrackedBalloons_eq S1 R.1 hT_nodup hT_mem_rows,
    saveTrackedBalloons_eq S1 R.1 hT_nodup hT_mem_rows,
    cleanupStaleData_eq S1 wall2 hT_bound hS_bound, hR2]

/-- C2, counterexample to the claim as stated: repeating the first-hour
tick within the same hour on the same upstream data re-mints the balloon
under a fresh id and leaves a second tracked row — the store is not
bit-identical. -/
theorem ingest_idempotent_counterexample :
    ((runHourlyUpdate emptyAssign (3600000 * 50 + 60000) (3600000 * 50)
        [⟨0, 0, 10⟩] {}).bind
      (runHourlyUpdate emptyAssign (3600000 * 50 + 60000) (3600000 * 50)
        [⟨0, 0, 10⟩])).map
        (fun st2 => st2.store.tracked.map (·.id)) =
      some ["balloon_0001", "balloon_0002"] ∧
    (runHourlyUpdate emptyAssign (3600000 * 50 + 60000) (3600000 * 50)
        [⟨0, 0, 10⟩] {}).map (fun st1 => st1.store.tracked.map (·.id)) =
      some ["balloon_0001"] :=
  ⟨rfl, rfl⟩

/-- The stationary observation scores a perfect 0 against its previous
position. -/
theorem score_still : calculateMatchScore currW prevBW [] = some 0 := by
  have hdist : calculateDistance currW.latitude currW.longitude
      prevBW.latitude prevBW.longitude = 0 := calculateDistance_self 0 0
  have hvel : effectiveVelocity prevBW [] = none := by
    simp [effectiveVelocity, jsTruthy, jsOr0, prevBW]
  have halt : |currW.altitude_km - prevBW.altitude_km| = 0 := by
    show |(10 : ℝ) - 10| = 0
    norm_num
  simp only [calculateMatchScore]
  rw [hdist, hvel, halt]
  norm_num [hasPrediction, MAX_DISTANCE_KM_PER_HOUR, MAX_ALTITUDE_DELTA_KM,
    TYPICAL_DISTANCE_KM_PER_HOUR, SCORING_WEIGHT_distance,
    SCORING_WEIGHT_direction, SCORING_WEIGHT_speed, SCORING_WEIGHT_altitude]

/-- The stationary observation's candidate list: exactly its own previous
row at cost 0. -/
theorem cand_still : candidatesFor (fun _ => []) [prevBW] ([currW].getD 0 default) =
    [⟨0, prevBW, 0⟩] := by
  rw [show [currW].getD 0 default = currW from rfl]
  unfold candidatesFor
  have h1 : currW.longitude - searchRadius ≤ prevBW.longitude := by
    show (0 : ℝ) - MAX_DISTANCE_KM_PER_HOUR * 1.5 / 111 ≤ 0
    norm_num [MAX_DISTANCE_KM_PER_HOUR]
  have h2 : prevBW.longitude ≤ currW.longitude + searchRadius := by
    show (0 : ℝ) ≤ 0 + MAX_DISTANCE_KM_PER_HOUR * 1.5 / 111
    norm_num [MAX_DISTANCE_KM_PER_HOUR]
  have h3 : currW.latitude - searchRadius ≤ prevBW.latitude := by
    show (0 : ℝ) - MAX_DISTANCE_KM_PER_HOUR * 1.5 / 111 ≤ 0
    norm_num [MAX_DISTANCE_KM_PER_HOUR]
  have h4 : prevBW.latitude ≤ currW.latitude + searchRadius := by
    show (0 : ℝ) ≤ 0 + MAX_DISTANCE_KM_PER_HOUR * 1.5 / 111
    norm_num [MAX_DISTANCE_KM_PER_HOUR]
  have hfil : [prevBW].filter (fun p =>
      decide (currW.longitude - searchRadius ≤ p.longitude) &&
      decide (p.longitude ≤ currW.longitude + searchRadius) &&
      decide (currW.latitude - searchRadius ≤ p.latitude) &&
      decide (p.latitude ≤ currW.latitude + searchRadius)) = [prevBW] := by
    rw [List.filter_cons, List.filter_nil]
    simp [h1, h2, h3, h4]
  try dsimp only
  rw [hfil, List.filterMap_cons]
  try dsimp only
  rw [score_still]
  dsimp only
  rw [if_pos (by norm_num [MAX_ACCEPTABLE_COST]), List.filterMap_nil]
  try dsimp only
  rw [List.mergeSort_singleton]
  rfl

theorem track_still : trackBalloons emptyAssign [currW] [prevBW]
    (fun _ => []) 2 = ([addMatchRow ([currW].getD 0 default) prevBW 0], 2) := by
  unfold trackBalloons
  rw [if_neg (by simp)]
  dsimp only
  unfold greedyPhase
  rw [show List.range ([currW].length) = [0] from rfl, List.foldl_cons,
    List.foldl_nil]
  unfold greedyStep
  dsimp only
  rw [cand_still]
  dsimp only
  have hdem : prevIdDemand (fun currIdx => candidatesFor (fun _ => []) [prevBW]
      ([currW].getD currIdx default)) [currW].length prevBW.id = 1 := by
    unfold prevIdDemand
    rw [show List.range ([currW].length) = [0] from rfl, List.filter_cons]
    dsimp only
    rw [cand_still]
    rfl
  rw [if_neg (by rw [hdem]; omega)]
  rw [if_neg (fun h => h.2)]
  rw [if_pos ⟨List.not_mem_nil _, by
    show |(10 : ℝ) - 10| < GREEDY_ALTITUDE_THRESHOLD
    norm_num [GREEDY_ALTITUDE_THRESHOLD], by
    norm_num [GREEDY_COST_THRESHOLD]⟩]
  rfl

theorem run1_still : runHourlyUpdate emptyAssign (3600000 * 50 + 60000)
    (3600000 * 50) [⟨0, 0, 10⟩] st0W = some st1W := by
  unfold runHourlyUpdate
  rw [if_neg (by simp)]
  dsimp only
  rw [show getTrackedBalloonsAtTimestamp (saveBalloonSnapshot st0W.store
      (3600000 * 50) [⟨0, 0, 10⟩]) (floorHour (3600000 * 50 - 60 * 60 * 1000)) =
      [prevBW] from rfl]
  rw [show (List.map (fun ir =>
      ({ id := tempId 0 ir.1, latitude := ir.2.lat, longitude := ir.2.lon,
         altitude_km := ir.2.alt, timestamp := (3600000 * 50 : ℤ),
         hour_offset := 0, confidence := 1, status := .active } :
        BalloonDataPoint)) ([(⟨0, 0, 10⟩ : RawObservation)].enum)) = [currW]
    from rfl]
  rw [show st0W.nextId = 2 from rfl, track_still]
  rfl

/-- C2, witness: the amended idempotence theorem applied to the hour-50
tick that re-matches its single balloon — the second run in the same hour
is the identity on the state. -/
theorem ingest_idempotent_witness :
    runHourlyUpdate emptyAssign (3600000 * 50 + 60000) (3600000 * 50)
      [⟨0, 0, 10⟩] st0W = some st1W ∧
    runHourlyUpdate emptyAssign (3600000 * 50 + 120000) (3600000 * 50)
      [⟨0, 0, 10⟩] st1W = some st1W :=
  ⟨run1_still,
    ingest_idempotent emptyAssign (3600000 * 50 + 60000)
      (3600000 * 50 + 120000) (3600000 * 50) [⟨0, 0, 10⟩] st0W st1W
      run1_still (by decide) (by decide) (by decide) (by decide) (by decide)
      (fun r hr => by rw [List.mem_singleton.mp hr]; decide)
      (fun s hs => absurd hs (List.not_mem_nil s))
      (by decide) (by decide) (by decide)
      (fun b hb => by
        rw [List.mem_singleton.mp hb]
        intro hc
        exact Status.noConfusion hc)⟩

end SondeLink
